import Mathlib

/-!
URL shortener: link service, repositories and click workers

A shallow embedding of

* `internal/services/link_service.go` (`charset`, `GenerateShortCode`, `CreateLink`,
  `GetLinkByShortCode`, `GetLinkStats`),
* `internal/repository/link_repository.go` and `click_repository.go` (the repository
  interfaces, and a store with the behaviour of the GORM implementations),
* `internal/workers/click_workers.go` (`clickWorker`),
* `internal/models/link.go` (`Link`).

Conventions.

* Go values `(x, err)` are pairs `x × Option GoError`; `none` is the nil error and, for a
  pointer, `none` is the nil pointer.
* Stateful code is explicit state passing: a `World` holds the repository state and the
  number of `rand.Int` calls made so far on `rand.Reader`.
* Every service operation also returns the list of calls it made (`Event`), in program
  order, so that statements such as "the insert is never called" can be written down.
  The events are observations only: no definition inspects them.
* A call that does not return because it panics has the result `none`.
* `log.Printf` output of the services is not modelled.
-/

namespace UrlShortener

/-! ## Errors -/

/-- Go `error` values met by the services: the GORM sentinel `gorm.ErrRecordNotFound`,
errors built by `errors.New` (or coming from a collaborator), and errors built by
`fmt.Errorf("<context>: %w", inner)`. -/
inductive GoError where
  | ErrRecordNotFound
  | other (msg : String)
  | wrap (context : String) (inner : GoError)
  deriving DecidableEq

/-- `errors.Is(err, target)`: `err` is `target`, or wraps (through `%w`) an error that is. -/
def errorsIs : GoError → GoError → Bool
  | GoError.wrap context inner, target =>
      decide (GoError.wrap context inner = target) || errorsIs inner target
  | err, target => decide (err = target)

/-! ## Models -/

/-- Modelled from the spec: `models.Click` (its declaring file is not part of the sources);
fields as in spec section 3 and as used by `clickWorker`. -/
structure Click where
  ID : Nat
  LinkID : Nat
  Timestamp : Nat
  UserAgent : String
  IPAddress : String
  deriving DecidableEq

/-- Modelled from the spec: `models.ClickEvent` (its declaring file is not part of the
sources); fields as in spec section 3 and as used by `clickWorker`. -/
structure ClickEvent where
  LinkID : Nat
  Timestamp : Nat
  UserAgent : String
  IP : String
  deriving DecidableEq

/-- `models.Link`. `time.Time` is a natural number. -/
structure Link where
  ID : Nat
  ShortCode : String
  LongURL : String
  CreatedAt : Nat
  Clicks : List Click
  deriving DecidableEq

/-- The `size:10` bound of the `ShortCode` column of `models.Link`. -/
def shortCodeMaxSize : Nat := 10

/-! ## Short code generation -/

/-- The alphabet of the short codes. -/
def charset : String := "abcdefghijklmnopqrstuvwxyzABCDEFGHIJKLMNOPQRSTUVWXYZ0123456789"

/-- The entropy source `rand.Reader` as seen through
`rand.Int(rand.Reader, big.NewInt(int64(len(charset))))`: the outcome of the `i`-th call is
an error or a number in `[0, len(charset))`. -/
abbrev RandReader := Nat → Except GoError (Fin charset.length)

/-- Indexing `charset[num.Int64()]`. -/
def charsetAt (num : Fin charset.length) : Char :=
  charset.data.get ⟨num.val, num.isLt⟩

/-- The loop `for i := range b` of `GenerateShortCode` over the `n` bytes still to fill,
`rng` being the number of `rand.Int` calls made so far. It returns the bytes filled, or the
error of the first failing draw, and the new number of calls. -/
def fillBytes (rd : RandReader) : Nat → Nat → Except GoError (List Char) × Nat
  | 0, rng => (Except.ok [], rng)
  | n + 1, rng =>
    match rd rng with
    | Except.error err =>
        (Except.error (GoError.wrap "failed to generate random number" err), rng + 1)
    | Except.ok num =>
      match fillBytes rd n (rng + 1) with
      | (Except.ok b, rng1) => (Except.ok (charsetAt num :: b), rng1)
      | (Except.error e, rng1) => (Except.error e, rng1)

/-- The largest `length` for which `make([]byte, length)` allocates: `runtime.maxAlloc`,
2^48 bytes on the 64-bit platforms the program is built for. Above it `make` panics with
"makeslice: len out of range". Running out of the memory of the machine below that limit
is not modelled. -/
def maxAlloc : Nat := 2 ^ 48

/-- The part of `GenerateShortCode` that follows `b := make([]byte, length)`, for a slice
of `n` bytes: the loop over `b` and the two `return` statements. -/
def fillAndReturn (rd : RandReader) (n rng : Nat) : (String × Option GoError) × Nat :=
  match fillBytes rd n rng with
  | (Except.error err, rng1) => (("", some err), rng1)
  | (Except.ok b, rng1) => ((String.mk b, none), rng1)

/-- `LinkService.GenerateShortCode`. The result is `none` when the call does not return:
`make([]byte, length)` panics for a `length` above `maxAlloc`. -/
def GenerateShortCode (rd : RandReader) (length : Int) (rng : Nat) :
    Option ((String × Option GoError) × Nat) :=
  let length := if length ≤ 0 then 6 else length
  if length ≤ (maxAlloc : Int) then some (fillAndReturn rd length.toNat rng) else none

/-! ## Repositories -/

/-- The interface `repository.LinkRepository` over a repository state `σ` (`GetAllLinks` is
not used by the services embedded here). `CreateLink` receives a pointer: on success the
implementation writes the primary key it assigned back into the link, which is the result. -/
structure LinkRepository (σ : Type) where
  CreateLink : σ → Link → Except GoError Nat × σ
  GetLinkByShortCode : σ → String → Except GoError Link × σ
  CountClicksByLinkID : σ → Nat → Except GoError Int × σ

/-- The interface `repository.ClickRepository` as far as `clickWorker` uses it. -/
structure ClickRepository (σ : Type) where
  CreateClick : σ → Click → Option GoError × σ

/-! ## Observed calls -/

/-- A call made by a service, with its arguments and its outcome. -/
inductive Event where
  | generate (length : Int) (code : String) (err : Option GoError)
  | lookup (shortCode : String) (link : Option Link) (err : Option GoError)
  | insert (link : Link) (err : Option GoError)
  | count (linkID : Nat) (total : Int) (err : Option GoError)
  deriving DecidableEq

/-- Is the event a call of `GenerateShortCode`? -/
def Event.isGenerate : Event → Bool
  | Event.generate _ _ _ => true
  | _ => false

/-- Is the event a call of the repository method `GetLinkByShortCode`? -/
def Event.isLookup : Event → Bool
  | Event.lookup _ _ _ => true
  | _ => false

/-- Is the event a call of the repository method `CreateLink`? -/
def Event.isInsert : Event → Bool
  | Event.insert _ _ => true
  | _ => false

/-- Is the event a call of the repository method `CountClicksByLinkID`? -/
def Event.isCount : Event → Bool
  | Event.count _ _ _ => true
  | _ => false

/-- The Go pair `(*models.Link, error)` of a lookup outcome. -/
def lookupLink : Except GoError Link → Option Link
  | Except.ok l => some l
  | Except.error _ => none

/-- The Go `error` of an outcome. -/
def errOf {α : Type} : Except GoError α → Option GoError
  | Except.ok _ => none
  | Except.error e => some e

/-! ## The link service -/

/-- What the services act on: the repository state and the number of `rand.Int` calls made
so far on `rand.Reader`. -/
structure World (σ : Type) where
  db : σ
  rng : Nat

/-- The result of running a service operation: what it returns, the world afterwards, and
the calls it made, in order. -/
structure Run (α σ : Type) where
  ret : α
  world : World σ
  events : List Event

/-- How the retry loop of `CreateLink` is left: by `return nil, err`, or by falling out of
the `for` (through `break` or because `i` reached `maxRetries`) with the value of the
variable `shortCode`. -/
inductive LoopExit where
  | returned (err : GoError)
  | exited (shortCode : String)
  deriving DecidableEq

/-- The constant `maxRetries` of `CreateLink`. -/
def maxRetries : Nat := 5

/-- The `for i := 0; i < maxRetries; i++` loop of `CreateLink`, with `n = maxRetries - i`
iterations left. The call `GenerateShortCode(6)` always returns, 6 being at most
`maxAlloc`, which is the proof passed to `Option.get`. -/
def retryLoop {σ : Type} (repo : LinkRepository σ) (rd : RandReader) :
    Nat → World σ → Run LoopExit σ
  | 0, w => ⟨LoopExit.exited "", w, []⟩
  | n + 1, w =>
    let gen := (GenerateShortCode rd 6 w.rng).get rfl
    let code := gen.1.1
    let evGen := Event.generate 6 code gen.1.2
    match gen.1.2 with
    | some err =>
        ⟨LoopExit.returned (GoError.wrap "failed to generate short code" err),
          ⟨w.db, gen.2⟩, [evGen]⟩
    | none =>
      let found := repo.GetLinkByShortCode w.db code
      let evLookup := Event.lookup code (lookupLink found.1) (errOf found.1)
      let w1 : World σ := ⟨found.2, gen.2⟩
      match found.1 with
      | Except.error err =>
        if errorsIs err GoError.ErrRecordNotFound then
          ⟨LoopExit.exited code, w1, [evGen, evLookup]⟩
        else
          ⟨LoopExit.returned
              (GoError.wrap "database error checking short code uniqueness" err),
            w1, [evGen, evLookup]⟩
      | Except.ok _ =>
        let rest := retryLoop repo rd n w1
        ⟨rest.ret, rest.world, evGen :: evLookup :: rest.events⟩

/-- `LinkService.CreateLink`; `now` is the value of `time.Now()`. -/
def CreateLink {σ : Type} (repo : LinkRepository σ) (rd : RandReader) (now : Nat)
    (longURL : String) (w : World σ) : Run (Option Link × Option GoError) σ :=
  let loop := retryLoop repo rd maxRetries w
  match loop.ret with
  | LoopExit.returned err => ⟨(none, some err), loop.world, loop.events⟩
  | LoopExit.exited shortCode =>
    if shortCode = "" then
      ⟨(none, some (GoError.other "unable to generate unique shortcode after maximum retries")),
        loop.world, loop.events⟩
    else
      let link : Link :=
        { ID := 0, ShortCode := shortCode, LongURL := longURL, CreatedAt := now, Clicks := [] }
      let created := repo.CreateLink loop.world.db link
      let w1 : World σ := ⟨created.2, loop.world.rng⟩
      let evInsert := Event.insert link (errOf created.1)
      match created.1 with
      | Except.error err =>
          ⟨(none, some (GoError.wrap "failed to create link" err)), w1,
            loop.events ++ [evInsert]⟩
      | Except.ok id =>
          ⟨(some { link with ID := id }, none), w1, loop.events ++ [evInsert]⟩

/-- `LinkService.GetLinkByShortCode`. -/
def GetLinkByShortCode {σ : Type} (repo : LinkRepository σ) (shortCode : String)
    (w : World σ) : Run (Option Link × Option GoError) σ :=
  let found := repo.GetLinkByShortCode w.db shortCode
  ⟨(lookupLink found.1, errOf found.1), ⟨found.2, w.rng⟩,
    [Event.lookup shortCode (lookupLink found.1) (errOf found.1)]⟩

/-- `LinkService.GetLinkStats`. -/
def GetLinkStats {σ : Type} (repo : LinkRepository σ) (shortCode : String)
    (w : World σ) : Run (Option Link × Int × Option GoError) σ :=
  let found := repo.GetLinkByShortCode w.db shortCode
  let evLookup := Event.lookup shortCode (lookupLink found.1) (errOf found.1)
  match found.1 with
  | Except.error err => ⟨(none, 0, some err), ⟨found.2, w.rng⟩, [evLookup]⟩
  | Except.ok link =>
    let counted := repo.CountClicksByLinkID found.2 link.ID
    let w1 : World σ := ⟨counted.2, w.rng⟩
    match counted.1 with
    | Except.error err =>
        ⟨(none, 0, some (GoError.wrap "failed to count clicks" err)), w1,
          [evLookup, Event.count link.ID 0 (some err)]⟩
    | Except.ok totalClicks =>
        ⟨(some link, totalClicks, none), w1,
          [evLookup, Event.count link.ID totalClicks none]⟩

/-! ## A store with the behaviour of the GORM repositories -/

/-- The two tables behind `GormLinkRepository` and `GormClickRepository`. -/
structure Store where
  links : List Link
  clicks : List Click
  deriving DecidableEq

/-- The primary key given to a new row of the links table: one more than the largest
key present. -/
def nextLinkID (s : Store) : Nat :=
  (s.links.map Link.ID).foldr max 0 + 1

/-- The in-memory link repository: `GetLinkByShortCode` answers the first stored link with
that short code and `gorm.ErrRecordNotFound` when there is none (`Where(...).First`),
`CreateLink` appends the link under a fresh primary key (`Create`), `CountClicksByLinkID`
counts the stored clicks with that `LinkID` (`Where(...).Count`). None of them fails
otherwise, and no uniqueness constraint is enforced by the store itself. -/
def memLinkRepository : LinkRepository Store where
  CreateLink := fun s link =>
    let id := if link.ID = 0 then nextLinkID s else link.ID
    (Except.ok id, { s with links := s.links ++ [{ link with ID := id }] })
  GetLinkByShortCode := fun s shortCode =>
    match s.links.find? (fun l => decide (l.ShortCode = shortCode)) with
    | some l => (Except.ok l, s)
    | none => (Except.error GoError.ErrRecordNotFound, s)
  CountClicksByLinkID := fun s linkID =>
    (Except.ok (Int.ofNat (s.clicks.countP (fun c => decide (c.LinkID = linkID)))), s)

/-- Sequential calls of `CreateLink`, one per request `(longURL, now)`, each on the world
the previous one left; the values returned, in order, and the final world. -/
def createLinks {σ : Type} (repo : LinkRepository σ) (rd : RandReader) :
    List (String × Nat) → World σ → List (Option Link × Option GoError) × World σ
  | [], w => ([], w)
  | req :: reqs, w =>
    let r := CreateLink repo rd req.2 req.1 w
    let rest := createLinks repo rd reqs r.world
    (r.ret :: rest.1, rest.2)

/-- The links among returned values `(link, err)` that came without error. -/
def returnedLinks : List (Option Link × Option GoError) → List Link
  | [] => []
  | (some l, none) :: rs => l :: returnedLinks rs
  | _ :: rs => returnedLinks rs

/-! ## Click workers -/

/-- The line a worker logs after trying to persist a click. -/
inductive WorkerLog where
  | failed (worker : Int) (err : GoError)
  | recorded (worker : Int) (linkID : Nat)
  deriving DecidableEq

/-- What a worker leaves behind: the repository state, the arguments of its `CreateClick`
calls in order, and its log lines in order. -/
structure WorkerRun (σ : Type) where
  db : σ
  calls : List Click
  logs : List WorkerLog

/-- One `clickWorker` (worker number `id`) ranging over the events it dequeues from the
channel, in dequeue order, until the channel is closed and drained. -/
def clickWorker {σ : Type} (id : Int) (repo : ClickRepository σ) :
    List ClickEvent → σ → WorkerRun σ
  | [], db => ⟨db, [], []⟩
  | event :: rest, db =>
    let click : Click :=
      { ID := 0, LinkID := event.LinkID, Timestamp := event.Timestamp,
        UserAgent := event.UserAgent, IPAddress := event.IP }
    let r := repo.CreateClick db click
    let line :=
      match r.1 with
      | some err => WorkerLog.failed id err
      | none => WorkerLog.recorded id event.LinkID
    let later := clickWorker id repo rest r.2
    ⟨later.db, click :: later.calls, line :: later.logs⟩

/-! ## The expected course of the retry loop -/

/-- The repository state left by looking up the codes one after the other. -/
def afterLookups {σ : Type} (repo : LinkRepository σ) : List String → σ → σ
  | [], s => s
  | code :: codes, s => afterLookups repo codes (repo.GetLinkByShortCode s code).2

/-- The calls of attempts that generate the codes one after the other, each without error,
and look each of them up: for every code its generation, then its lookup with the answer
the repository gives in the state the earlier lookups left. -/
def attemptEvents {σ : Type} (repo : LinkRepository σ) : List String → σ → List Event
  | [], _ => []
  | code :: codes, s =>
    Event.generate 6 code none ::
      Event.lookup code (lookupLink (repo.GetLinkByShortCode s code).1)
        (errOf (repo.GetLinkByShortCode s code).1) ::
      attemptEvents repo codes (repo.GetLinkByShortCode s code).2

/-- The codes returned by `n` calls `GenerateShortCode(6)` made one after the other, the
first of them starting at draw number `rng`. -/
def generatedCodes (rd : RandReader) : Nat → Nat → List String
  | 0, _ => []
  | n + 1, rng =>
    match GenerateShortCode rd 6 rng with
    | some r => r.1.1 :: generatedCodes rd n r.2
    | none => []

/-! ## Readers and repositories used as concrete instances -/

/-- A reader that never fails: call `i` yields `i mod 62`. -/
def cyclicReader : RandReader :=
  fun i => Except.ok ⟨i % 62, Nat.mod_lt i (by decide)⟩

/-- A reader whose call number `k` fails and whose other calls are those of
`cyclicReader`. -/
def failingReader (k : Nat) : RandReader :=
  fun i => if i = k then Except.error (GoError.other "entropy unavailable") else cyclicReader i

/-- A repository in which every lookup finds a link, so that every code collides. -/
def collidingRepository : LinkRepository Unit where
  CreateLink := fun s _ => (Except.ok 1, s)
  GetLinkByShortCode := fun s shortCode => (Except.ok ⟨1, shortCode, "https://taken.example", 0, []⟩, s)
  CountClicksByLinkID := fun s _ => (Except.ok 0, s)

/-- A repository whose lookups answer from a script, one outcome per call, and report
`gorm.ErrRecordNotFound` once the script is used up. -/
def scriptedRepository : LinkRepository (List (Except GoError Link)) where
  CreateLink := fun s _ => (Except.ok 1, s)
  GetLinkByShortCode := fun s _ =>
    match s with
    | [] => (Except.error GoError.ErrRecordNotFound, [])
    | r :: rs => (r, rs)
  CountClicksByLinkID := fun s _ => (Except.ok 0, s)

/-- A repository that keeps a tally: its state is the number of lookups it has answered
and the links it has been asked to insert. Every lookup finds a link. -/
def tallyRepository : LinkRepository (Nat × List Link) where
  CreateLink := fun s link =>
    (Except.ok (s.2.length + 1), (s.1, s.2 ++ [{ link with ID := s.2.length + 1 }]))
  GetLinkByShortCode := fun s shortCode =>
    (Except.ok ⟨s.1 + 1, shortCode, "https://taken.example", 0, []⟩, (s.1 + 1, s.2))
  CountClicksByLinkID := fun s _ => (Except.ok 0, s)

/-- A repository whose lookups answer from a script, one outcome per call, and report
`gorm.ErrRecordNotFound` once the script is used up, and whose inserts are kept: its
state is the rest of the script and the links inserted so far. -/
def recordingRepository : LinkRepository (List (Except GoError Link) × List Link) where
  CreateLink := fun s link =>
    (Except.ok (s.2.length + 1), (s.1, s.2 ++ [{ link with ID := s.2.length + 1 }]))
  GetLinkByShortCode := fun s _ =>
    match s.1 with
    | [] => (Except.error GoError.ErrRecordNotFound, s)
    | r :: rs => (r, (rs, s.2))
  CountClicksByLinkID := fun s _ => (Except.ok 0, s)

/-- A reader that yields the draws `ds` from call number `rng` on, and fails afterwards. -/
def readerOfDraws (ds : List (Fin charset.length)) (rng : Nat) : RandReader :=
  fun i =>
    match ds[i - rng]? with
    | some d => Except.ok d
    | none => Except.error (GoError.other "entropy exhausted")

/-- A repository over the in-memory store whose click count always fails. -/
def countFailingRepository : LinkRepository Store where
  CreateLink := memLinkRepository.CreateLink
  GetLinkByShortCode := memLinkRepository.GetLinkByShortCode
  CountClicksByLinkID := fun s _ => (Except.error (GoError.other "database is locked"), s)

/-- A repository in which no short code is found and every insert fails. -/
def insertFailingRepository : LinkRepository Unit where
  CreateLink := fun s _ =>
    (Except.error (GoError.other "UNIQUE constraint failed: links.short_code"), s)
  GetLinkByShortCode := fun s _ => (Except.error GoError.ErrRecordNotFound, s)
  CountClicksByLinkID := fun s _ => (Except.ok 0, s)

/-! ## The worker pool -/

/-- The conversion of a `ClickEvent` into a `models.Click` made by `clickWorker`. -/
def clickOfEvent (event : ClickEvent) : Click :=
  { ID := 0, LinkID := event.LinkID, Timestamp := event.Timestamp,
    UserAgent := event.UserAgent, IPAddress := event.IP }

/-- A click repository that refuses every click whose `LinkID` is odd and stores the
others. -/
def pickyClickRepository : ClickRepository (List Click) where
  CreateClick := fun s click =>
    if click.LinkID % 2 = 1 then (some (GoError.other "constraint failed"), s)
    else (none, s ++ [click])

/-! ## Theorems -/

theorem charsetAt_mem (num : Fin charset.length) : charsetAt num ∈ charset.data := by
  unfold charsetAt
  exact List.get_mem _ _ _

theorem fillBytes_ok_inv (rd : RandReader) :
    ∀ (n rng : Nat) (b : List Char) (rng1 : Nat),
      fillBytes rd n rng = (Except.ok b, rng1) →
      b.length = n ∧ (∀ c ∈ b, c ∈ charset.data) ∧ rng1 = rng + n := by
  intro n
  induction n with
  | zero =>
    intro rng b rng1 h
    simp [fillBytes] at h
    obtain ⟨hb, hr⟩ := h
    subst hb; subst hr
    simp
  | succ n ih =>
    intro rng b rng1 h
    rw [fillBytes] at h
    cases hd : rd rng with
    | error e => rw [hd] at h; simp at h
    | ok num =>
      rw [hd] at h
      simp only at h
      cases hf : fillBytes rd n (rng + 1) with
      | mk r p =>
        rw [hf] at h
        cases r with
        | error e => simp at h
        | ok b1 =>
          simp at h
          obtain ⟨hb, hr⟩ := h
          obtain ⟨h1, h2, h3⟩ := ih (rng + 1) b1 p hf
          subst hb; subst hr
          refine ⟨by simp [h1], ?_, by omega⟩
          intro c hc
          rcases List.mem_cons.mp hc with hc | hc
          · subst hc; exact charsetAt_mem num
          · exact h2 c hc

theorem fillBytes_total (rd : RandReader) (hrd : ∀ i, ∃ num, rd i = Except.ok num) :
    ∀ (n rng : Nat), ∃ b, fillBytes rd n rng = (Except.ok b, rng + n) := by
  intro n
  induction n with
  | zero => intro rng; exact ⟨[], by simp [fillBytes]⟩
  | succ n ih =>
    intro rng
    obtain ⟨num, hnum⟩ := hrd rng
    obtain ⟨b, hb⟩ := ih (rng + 1)
    refine ⟨charsetAt num :: b, ?_⟩
    rw [fillBytes, hnum]
    simp only [hb]
    congr 1
    omega

/-- Once the slice is allocated: a nil error comes with a code of as many characters as
the slice has bytes, over the alphabet, having made that many draws; a non-nil error comes
with the empty code. -/
theorem fillAndReturn_inv (rd : RandReader) (n rng : Nat) :
    ((fillAndReturn rd n rng).1.2 = none →
      (fillAndReturn rd n rng).1.1.length = n ∧
      (∀ c ∈ (fillAndReturn rd n rng).1.1.data, c ∈ charset.data) ∧
      (fillAndReturn rd n rng).2 = rng + n) ∧
    ((fillAndReturn rd n rng).1.2 ≠ none →
      (fillAndReturn rd n rng).1.1 = "") := by
  unfold fillAndReturn
  cases hf : fillBytes rd n rng with
  | mk r p =>
    cases r with
    | error e => simp [hf]
    | ok b =>
      obtain ⟨h1, h2, h3⟩ := fillBytes_ok_inv rd _ rng b p hf
      simp only [hf, String.length, ne_eq, not_true_eq_false, false_implies, and_true,
        true_implies]
      exact ⟨h1, h2, h3⟩

/-- At length 6 the slice is always allocated. -/
theorem GenerateShortCode_six (rd : RandReader) (rng : Nat) :
    GenerateShortCode rd 6 rng = some (fillAndReturn rd 6 rng) := rfl

/-- What `GenerateShortCode` does in terms of the allocation limit. -/
theorem GenerateShortCode_eq (rd : RandReader) (length : Int) (rng : Nat) :
    GenerateShortCode rd length rng =
      if (if length ≤ 0 then 6 else length) ≤ (maxAlloc : Int) then
        some (fillAndReturn rd (if length ≤ 0 then 6 else length).toNat rng)
      else none := rfl

/-- One turn of the retry loop, the call `GenerateShortCode(6)` having returned. -/
theorem retryLoop_succ {σ : Type} (repo : LinkRepository σ) (rd : RandReader)
    (n : Nat) (w : World σ) :
    retryLoop repo rd (n + 1) w =
      match (fillAndReturn rd 6 w.rng).1.2 with
      | some err =>
          ⟨LoopExit.returned (GoError.wrap "failed to generate short code" err),
            ⟨w.db, (fillAndReturn rd 6 w.rng).2⟩,
            [Event.generate 6 (fillAndReturn rd 6 w.rng).1.1 (fillAndReturn rd 6 w.rng).1.2]⟩
      | none =>
        match (repo.GetLinkByShortCode w.db (fillAndReturn rd 6 w.rng).1.1).1 with
        | Except.error err =>
          if errorsIs err GoError.ErrRecordNotFound then
            ⟨LoopExit.exited (fillAndReturn rd 6 w.rng).1.1,
              ⟨(repo.GetLinkByShortCode w.db (fillAndReturn rd 6 w.rng).1.1).2,
                (fillAndReturn rd 6 w.rng).2⟩,
              [Event.generate 6 (fillAndReturn rd 6 w.rng).1.1 (fillAndReturn rd 6 w.rng).1.2,
                Event.lookup (fillAndReturn rd 6 w.rng).1.1
                  (lookupLink (repo.GetLinkByShortCode w.db (fillAndReturn rd 6 w.rng).1.1).1)
                  (errOf (repo.GetLinkByShortCode w.db (fillAndReturn rd 6 w.rng).1.1).1)]⟩
          else
            ⟨LoopExit.returned
                (GoError.wrap "database error checking short code uniqueness" err),
              ⟨(repo.GetLinkByShortCode w.db (fillAndReturn rd 6 w.rng).1.1).2,
                (fillAndReturn rd 6 w.rng).2⟩,
              [Event.generate 6 (fillAndReturn rd 6 w.rng).1.1 (fillAndReturn rd 6 w.rng).1.2,
                Event.lookup (fillAndReturn rd 6 w.rng).1.1
                  (lookupLink (repo.GetLinkByShortCode w.db (fillAndReturn rd 6 w.rng).1.1).1)
                  (errOf (repo.GetLinkByShortCode w.db (fillAndReturn rd 6 w.rng).1.1).1)]⟩
        | Except.ok _ =>
          ⟨(retryLoop repo rd n
              ⟨(repo.GetLinkByShortCode w.db (fillAndReturn rd 6 w.rng).1.1).2,
                (fillAndReturn rd 6 w.rng).2⟩).ret,
            (retryLoop repo rd n
              ⟨(repo.GetLinkByShortCode w.db (fillAndReturn rd 6 w.rng).1.1).2,
                (fillAndReturn rd 6 w.rng).2⟩).world,
            Event.generate 6 (fillAndReturn rd 6 w.rng).1.1 (fillAndReturn rd 6 w.rng).1.2 ::
              Event.lookup (fillAndReturn rd 6 w.rng).1.1
                (lookupLink (repo.GetLinkByShortCode w.db (fillAndReturn rd 6 w.rng).1.1).1)
                (errOf (repo.GetLinkByShortCode w.db (fillAndReturn rd 6 w.rng).1.1).1) ::
              (retryLoop repo rd n
                ⟨(repo.GetLinkByShortCode w.db (fillAndReturn rd 6 w.rng).1.1).2,
                  (fillAndReturn rd 6 w.rng).2⟩).events⟩ := by
  rw [retryLoop]
  rfl

theorem retryLoop_exited {σ : Type} (repo : LinkRepository σ) (rd : RandReader) :
    ∀ (n : Nat) (w : World σ) (code : String),
      (retryLoop repo rd n w).ret = LoopExit.exited code →
      code = "" ∨ (code.length = 6 ∧ ∀ c ∈ code.data, c ∈ charset.data) := by
  intro n
  induction n with
  | zero =>
    intro w code h
    simp [retryLoop] at h
    exact Or.inl h.symm
  | succ n ih =>
    intro w code h
    rw [retryLoop_succ] at h
    have hg := fillAndReturn_inv rd 6 w.rng
    cases he : (fillAndReturn rd 6 w.rng).1.2 with
    | some e => rw [he] at h; simp at h
    | none =>
      rw [he] at h
      simp only at h
      have hgood := hg.1 he
      cases hl : (repo.GetLinkByShortCode w.db (fillAndReturn rd 6 w.rng).1.1).1 with
      | error e =>
        rw [hl] at h
        simp only at h
        split at h
        · simp at h
          subst h
          right
          exact ⟨by simpa using hgood.1, hgood.2.1⟩
        · simp at h
      | ok l =>
        rw [hl] at h
        simp only at h
        exact ih _ code h

/-- Claim C1. For every long URL, every entropy source and every repository: when
`CreateLink` returns a link with a nil error, the short code of that link has exactly 6
characters, which is within the 10 characters of the `ShortCode` column, and each of its
characters is one of the 62 characters of `charset`. -/
theorem CreateLink_shortCode_shape {σ : Type} (repo : LinkRepository σ) (rd : RandReader)
    (now : Nat) (longURL : String) (w : World σ) (link : Link)
    (h : (CreateLink repo rd now longURL w).ret = (some link, none)) :
    link.ShortCode.length = 6 ∧ link.ShortCode.length ≤ shortCodeMaxSize ∧
      charset.length = 62 ∧ ∀ c ∈ link.ShortCode.data, c ∈ charset.data := by
  unfold CreateLink at h
  simp only at h
  cases hr : (retryLoop repo rd maxRetries w).ret with
  | returned e => rw [hr] at h; simp at h
  | exited code =>
    rw [hr] at h
    simp only at h
    split at h
    · simp at h
    · rename_i hne
      rcases retryLoop_exited repo rd _ w code hr with h0 | ⟨h6, hc⟩
      · exact absurd h0 hne
      · split at h
        · simp at h
        · simp at h
          subst h
          refine ⟨h6, ?_, rfl, hc⟩
          simp [h6, shortCodeMaxSize]

/-! ### One iteration of the retry loop -/

theorem retryLoop_succ_genErr {σ : Type} (repo : LinkRepository σ) (rd : RandReader)
    (n : Nat) (w : World σ) (e : GoError)
    (hg : (fillAndReturn rd 6 w.rng).1.2 = some e) :
    retryLoop repo rd (n + 1) w =
      ⟨LoopExit.returned (GoError.wrap "failed to generate short code" e),
        ⟨w.db, (fillAndReturn rd 6 w.rng).2⟩,
        [Event.generate 6 (fillAndReturn rd 6 w.rng).1.1 (some e)]⟩ := by
  rw [retryLoop_succ]
  simp only [hg]

theorem retryLoop_succ_lookupErr {σ : Type} (repo : LinkRepository σ) (rd : RandReader)
    (n : Nat) (w : World σ) (e : GoError)
    (hg : (fillAndReturn rd 6 w.rng).1.2 = none)
    (hl : (repo.GetLinkByShortCode w.db (fillAndReturn rd 6 w.rng).1.1).1
      = Except.error e) :
    retryLoop repo rd (n + 1) w =
      ⟨if errorsIs e GoError.ErrRecordNotFound then
          LoopExit.exited (fillAndReturn rd 6 w.rng).1.1
        else LoopExit.returned
          (GoError.wrap "database error checking short code uniqueness" e),
        ⟨(repo.GetLinkByShortCode w.db (fillAndReturn rd 6 w.rng).1.1).2,
          (fillAndReturn rd 6 w.rng).2⟩,
        [Event.generate 6 (fillAndReturn rd 6 w.rng).1.1 none,
          Event.lookup (fillAndReturn rd 6 w.rng).1.1 none (some e)]⟩ := by
  rw [retryLoop_succ]
  simp only [hg, hl, lookupLink, errOf]
  split <;> rfl

theorem retryLoop_succ_found {σ : Type} (repo : LinkRepository σ) (rd : RandReader)
    (n : Nat) (w : World σ) (l : Link)
    (hg : (fillAndReturn rd 6 w.rng).1.2 = none)
    (hl : (repo.GetLinkByShortCode w.db (fillAndReturn rd 6 w.rng).1.1).1
      = Except.ok l) :
    retryLoop repo rd (n + 1) w =
      ⟨(retryLoop repo rd n
          ⟨(repo.GetLinkByShortCode w.db (fillAndReturn rd 6 w.rng).1.1).2,
            (fillAndReturn rd 6 w.rng).2⟩).ret,
        (retryLoop repo rd n
          ⟨(repo.GetLinkByShortCode w.db (fillAndReturn rd 6 w.rng).1.1).2,
            (fillAndReturn rd 6 w.rng).2⟩).world,
        Event.generate 6 (fillAndReturn rd 6 w.rng).1.1 none ::
          Event.lookup (fillAndReturn rd 6 w.rng).1.1 (some l) none ::
          (retryLoop repo rd n
            ⟨(repo.GetLinkByShortCode w.db (fillAndReturn rd 6 w.rng).1.1).2,
              (fillAndReturn rd 6 w.rng).2⟩).events⟩ := by
  rw [retryLoop_succ]
  simp only [hg, hl, lookupLink, errOf]

theorem fillAndReturn_total (rd : RandReader) (hrd : ∀ i, ∃ num, rd i = Except.ok num)
    (n rng : Nat) : (fillAndReturn rd n rng).1.2 = none := by
  unfold fillAndReturn
  obtain ⟨b, hb⟩ := fillBytes_total rd hrd n rng
  simp only [hb]

theorem retryLoop_lookup_error {σ : Type} (repo : LinkRepository σ) (rd : RandReader) :
    ∀ (n : Nat) (w : World σ) (j : Nat) (code : String) (e : GoError),
      ((retryLoop repo rd n w).events.filter Event.isLookup)[j]?
        = some (Event.lookup code none (some e)) →
      errorsIs e GoError.ErrRecordNotFound = false →
      (retryLoop repo rd n w).ret = LoopExit.returned
        (GoError.wrap "database error checking short code uniqueness" e) ∧
      (retryLoop repo rd n w).events.countP Event.isLookup = j + 1 ∧
      (retryLoop repo rd n w).events.countP Event.isGenerate = j + 1 ∧
      (retryLoop repo rd n w).events.getLast? = some (Event.lookup code none (some e)) ∧
      j + 1 ≤ n := by
  intro n
  induction n with
  | zero => intro w j code e h; simp [retryLoop] at h
  | succ n ih =>
    intro w j code e h hne
    cases hg : (fillAndReturn rd 6 w.rng).1.2 with
    | some ge =>
      rw [retryLoop_succ_genErr repo rd n w ge hg] at h
      simp [Event.isLookup] at h
    | none =>
      cases hl : (repo.GetLinkByShortCode w.db (fillAndReturn rd 6 w.rng).1.1).1 with
      | error le =>
        rw [retryLoop_succ_lookupErr repo rd n w le hg hl] at h ⊢
        simp only [List.filter_cons, Event.isLookup, Bool.false_eq_true, if_false, if_true,
          List.filter_nil] at h
        cases j with
        | succ j => simp at h
        | zero =>
          simp at h
          obtain ⟨hc, he⟩ := h
          subst he
          simp [hne, Event.isLookup, Event.isGenerate, hc]
      | ok l =>
        rw [retryLoop_succ_found repo rd n w l hg hl] at h ⊢
        simp only [List.filter_cons, Event.isLookup, Bool.false_eq_true, if_false, if_true]
          at h
        cases j with
        | zero => simp at h
        | succ j =>
          simp only [List.getElem?_cons_succ] at h
          obtain ⟨h1, h2, h3, h4, h5⟩ := ih _ j code e h hne
          refine ⟨h1, ?_, ?_, ?_, by omega⟩
          · simp [List.countP_cons, Event.isLookup, h2]
          · simp [List.countP_cons, Event.isGenerate, h3]
          · cases hev : (retryLoop repo rd n
                ⟨(repo.GetLinkByShortCode w.db (fillAndReturn rd 6 w.rng).1.1).2,
                  (fillAndReturn rd 6 w.rng).2⟩).events with
            | nil => rw [hev] at h4; simp at h4
            | cons a as =>
              rw [hev] at h4
              simp only [List.getLast?_cons_cons]
              exact h4

theorem retryLoop_no_insert {σ : Type} (repo : LinkRepository σ) (rd : RandReader) :
    ∀ (n : Nat) (w : World σ),
      (retryLoop repo rd n w).events.countP Event.isInsert = 0 := by
  intro n
  induction n with
  | zero => intro w; simp [retryLoop]
  | succ n ih =>
    intro w
    cases hg : (fillAndReturn rd 6 w.rng).1.2 with
    | some ge =>
      rw [retryLoop_succ_genErr repo rd n w ge hg]
      simp [Event.isInsert]
    | none =>
      cases hl : (repo.GetLinkByShortCode w.db (fillAndReturn rd 6 w.rng).1.1).1 with
      | error le =>
        rw [retryLoop_succ_lookupErr repo rd n w le hg hl]
        simp [Event.isInsert]
      | ok l =>
        rw [retryLoop_succ_found repo rd n w l hg hl]
        simp only [List.countP_cons, Event.isInsert, ih]
        simp

/-- The four ways `CreateLink` ends, in terms of its retry loop. -/
theorem CreateLink_cases {σ : Type} (repo : LinkRepository σ) (rd : RandReader)
    (now : Nat) (longURL : String) (w : World σ) :
    (∃ e, (retryLoop repo rd maxRetries w).ret = LoopExit.returned e ∧
      CreateLink repo rd now longURL w =
        ⟨(none, some e), (retryLoop repo rd maxRetries w).world,
          (retryLoop repo rd maxRetries w).events⟩) ∨
    ((retryLoop repo rd maxRetries w).ret = LoopExit.exited "" ∧
      CreateLink repo rd now longURL w =
        ⟨(none, some
            (GoError.other "unable to generate unique shortcode after maximum retries")),
          (retryLoop repo rd maxRetries w).world, (retryLoop repo rd maxRetries w).events⟩) ∨
    (∃ code e, code ≠ "" ∧ (retryLoop repo rd maxRetries w).ret = LoopExit.exited code ∧
      (repo.CreateLink (retryLoop repo rd maxRetries w).world.db
        ⟨0, code, longURL, now, []⟩).1 = Except.error e ∧
      CreateLink repo rd now longURL w =
        ⟨(none, some (GoError.wrap "failed to create link" e)),
          ⟨(repo.CreateLink (retryLoop repo rd maxRetries w).world.db
              ⟨0, code, longURL, now, []⟩).2, (retryLoop repo rd maxRetries w).world.rng⟩,
          (retryLoop repo rd maxRetries w).events
            ++ [Event.insert ⟨0, code, longURL, now, []⟩ (some e)]⟩) ∨
    (∃ code id, code ≠ "" ∧ (retryLoop repo rd maxRetries w).ret = LoopExit.exited code ∧
      (repo.CreateLink (retryLoop repo rd maxRetries w).world.db
        ⟨0, code, longURL, now, []⟩).1 = Except.ok id ∧
      CreateLink repo rd now longURL w =
        ⟨(some ⟨id, code, longURL, now, []⟩, none),
          ⟨(repo.CreateLink (retryLoop repo rd maxRetries w).world.db
              ⟨0, code, longURL, now, []⟩).2, (retryLoop repo rd maxRetries w).world.rng⟩,
          (retryLoop repo rd maxRetries w).events
            ++ [Event.insert ⟨0, code, longURL, now, []⟩ none]⟩) := by
  cases hr : (retryLoop repo rd maxRetries w).ret with
  | returned e => left; exact ⟨e, rfl, by simp only [CreateLink, hr]⟩
  | exited code =>
    right
    by_cases hc : code = ""
    · left; subst hc; exact ⟨rfl, by simp only [CreateLink, hr, if_true]⟩
    · right
      cases hi : (repo.CreateLink (retryLoop repo rd maxRetries w).world.db
          ⟨0, code, longURL, now, []⟩).1 with
      | error e =>
        left
        exact ⟨code, e, hc, rfl, hi, by simp only [CreateLink, hr, hc, if_false, hi, errOf]⟩
      | ok id =>
        right
        exact ⟨code, id, hc, rfl, hi, by simp only [CreateLink, hr, hc, if_false, hi, errOf]⟩

theorem CreateLink_filter_isLookup {σ : Type} (repo : LinkRepository σ) (rd : RandReader)
    (now : Nat) (longURL : String) (w : World σ) :
    (CreateLink repo rd now longURL w).events.filter Event.isLookup =
      (retryLoop repo rd maxRetries w).events.filter Event.isLookup := by
  rcases CreateLink_cases repo rd now longURL w with
    ⟨e, _, h⟩ | ⟨_, h⟩ | ⟨code, e, _, _, _, h⟩ | ⟨code, id, _, _, _, h⟩ <;>
  rw [h] <;> simp [Event.isLookup]

theorem CreateLink_filter_isGenerate {σ : Type} (repo : LinkRepository σ) (rd : RandReader)
    (now : Nat) (longURL : String) (w : World σ) :
    (CreateLink repo rd now longURL w).events.filter Event.isGenerate =
      (retryLoop repo rd maxRetries w).events.filter Event.isGenerate := by
  rcases CreateLink_cases repo rd now longURL w with
    ⟨e, _, h⟩ | ⟨_, h⟩ | ⟨code, e, _, _, _, h⟩ | ⟨code, id, _, _, _, h⟩ <;>
  rw [h] <;> simp [Event.isGenerate]

/-- When the retry loop is left by `return`, `CreateLink` returns that error and makes
exactly the calls of the loop. -/
theorem CreateLink_of_returned {σ : Type} (repo : LinkRepository σ) (rd : RandReader)
    (now : Nat) (longURL : String) (w : World σ) (e : GoError)
    (hr : (retryLoop repo rd maxRetries w).ret = LoopExit.returned e) :
    CreateLink repo rd now longURL w =
      ⟨(none, some e), (retryLoop repo rd maxRetries w).world,
        (retryLoop repo rd maxRetries w).events⟩ := by
  simp only [CreateLink, hr]

/-- Claim C5. When lookup number `k` of a `CreateLink` call fails with an error `e` for
which `errors.Is(e, gorm.ErrRecordNotFound)` is false, `CreateLink` returns a nil link and
`e` wrapped as "database error checking short code uniqueness", and that lookup is the
last call it makes: exactly `k` lookups and `k` generations, no insert, and `k` is at most
`maxRetries`. -/
theorem CreateLink_lookup_error_aborts {σ : Type} (repo : LinkRepository σ)
    (rd : RandReader) (now : Nat) (longURL : String) (w : World σ)
    (k : Nat) (code : String) (e : GoError) (hk : 1 ≤ k)
    (hlookup : ((CreateLink repo rd now longURL w).events.filter Event.isLookup)[k - 1]?
      = some (Event.lookup code none (some e)))
    (hne : errorsIs e GoError.ErrRecordNotFound = false) :
    (CreateLink repo rd now longURL w).ret =
      (none, some (GoError.wrap "database error checking short code uniqueness" e)) ∧
    (CreateLink repo rd now longURL w).events.countP Event.isLookup = k ∧
    (CreateLink repo rd now longURL w).events.countP Event.isGenerate = k ∧
    (CreateLink repo rd now longURL w).events.countP Event.isInsert = 0 ∧
    (CreateLink repo rd now longURL w).events.getLast?
      = some (Event.lookup code none (some e)) ∧
    k ≤ maxRetries := by
  rw [CreateLink_filter_isLookup] at hlookup
  obtain ⟨h1, h2, h3, h4, h5⟩ :=
    retryLoop_lookup_error repo rd maxRetries w (k - 1) code e hlookup hne
  rw [CreateLink_of_returned repo rd now longURL w _ h1]
  have hk1 : k - 1 + 1 = k := by omega
  rw [hk1] at h2 h3 h5
  exact ⟨rfl, h2, h3, retryLoop_no_insert repo rd maxRetries w, h4, h5⟩

theorem retryLoop_generate_error {σ : Type} (repo : LinkRepository σ) (rd : RandReader) :
    ∀ (n : Nat) (w : World σ) (j : Nat) (code : String) (e : GoError),
      ((retryLoop repo rd n w).events.filter Event.isGenerate)[j]?
        = some (Event.generate 6 code (some e)) →
      (retryLoop repo rd n w).ret = LoopExit.returned
        (GoError.wrap "failed to generate short code" e) ∧
      (retryLoop repo rd n w).events.countP Event.isGenerate = j + 1 ∧
      (retryLoop repo rd n w).events.countP Event.isLookup = j ∧
      (retryLoop repo rd n w).events.getLast? = some (Event.generate 6 code (some e)) ∧
      j + 1 ≤ n := by
  intro n
  induction n with
  | zero => intro w j code e h; simp [retryLoop] at h
  | succ n ih =>
    intro w j code e h
    cases hg : (fillAndReturn rd 6 w.rng).1.2 with
    | some ge =>
      rw [retryLoop_succ_genErr repo rd n w ge hg] at h ⊢
      simp only [List.filter_cons, Event.isGenerate, if_true, List.filter_nil] at h
      cases j with
      | succ j => simp at h
      | zero =>
        simp at h
        obtain ⟨hc, he⟩ := h
        subst he
        simp [Event.isLookup, Event.isGenerate, hc]
    | none =>
      cases hl : (repo.GetLinkByShortCode w.db (fillAndReturn rd 6 w.rng).1.1).1 with
      | error le =>
        rw [retryLoop_succ_lookupErr repo rd n w le hg hl] at h
        simp only [List.filter_cons, Event.isGenerate, Bool.false_eq_true, if_false, if_true,
          List.filter_nil] at h
        cases j with
        | succ j => simp at h
        | zero => simp at h
      | ok l =>
        rw [retryLoop_succ_found repo rd n w l hg hl] at h ⊢
        simp only [List.filter_cons, Event.isGenerate, Bool.false_eq_true, if_false, if_true]
          at h
        cases j with
        | zero => simp at h
        | succ j =>
          simp only [List.getElem?_cons_succ] at h
          obtain ⟨h1, h2, h3, h4, h5⟩ := ih _ j code e h
          refine ⟨h1, ?_, ?_, ?_, by omega⟩
          · simp [List.countP_cons, Event.isGenerate, h2]
          · simp [List.countP_cons, Event.isLookup, h3]
          · cases hev : (retryLoop repo rd n
                ⟨(repo.GetLinkByShortCode w.db (fillAndReturn rd 6 w.rng).1.1).2,
                  (fillAndReturn rd 6 w.rng).2⟩).events with
            | nil => rw [hev] at h4; simp at h4
            | cons a as =>
              rw [hev] at h4
              simp only [List.getLast?_cons_cons]
              exact h4

theorem fillBytes_error_at (rd : RandReader) :
    ∀ (n rng j : Nat) (e : GoError), j < n →
      (∀ i, i < j → ∃ num, rd (rng + i) = Except.ok num) →
      rd (rng + j) = Except.error e →
      fillBytes rd n rng =
        (Except.error (GoError.wrap "failed to generate random number" e), rng + j + 1) := by
  intro n
  induction n with
  | zero => intro rng j e hj; omega
  | succ n ih =>
    intro rng j e hj hok herr
    cases j with
    | zero =>
      rw [fillBytes]
      simp only [Nat.add_zero] at herr
      simp only [herr, Nat.add_zero]
    | succ j =>
      obtain ⟨num, hnum⟩ := hok 0 (by omega)
      simp only [Nat.add_zero] at hnum
      have hrec := ih (rng + 1) j e (by omega)
        (fun i hi => by
          obtain ⟨m, hm⟩ := hok (i + 1) (by omega)
          exact ⟨m, by rw [← hm]; congr 1; omega⟩)
        (by rw [← herr]; congr 1; omega)
      rw [fillBytes, hnum]
      simp only [hrec]
      congr 1
      omega

/-- Claim C10. First, in a `GenerateShortCode` call whose slice is allocated (the length
is at most `maxAlloc`, as the 6 of `CreateLink` is): when the draws before draw `j`
succeed and draw `j` fails with `e`, the call returns the empty string and `e` wrapped as
"failed to generate random number", having made exactly `j + 1` draws: the failed draw is
not retried; and whenever the call returns a non-nil error, it returns the empty string.
Second, when generation number `k` of a `CreateLink` call returns an error `e`,
`CreateLink` returns a nil link and `e` wrapped as "failed to generate short code", and
that generation is the last call it makes: `k` generations, `k - 1` lookups, no insert. -/
theorem entropy_failure_is_fatal :
    (∀ (rd : RandReader) (length : Int) (rng j : Nat) (e : GoError),
      (if length ≤ 0 then 6 else length) ≤ (maxAlloc : Int) →
      j < (if length ≤ 0 then 6 else length).toNat →
      (∀ i, i < j → ∃ num, rd (rng + i) = Except.ok num) →
      rd (rng + j) = Except.error e →
      GenerateShortCode rd length rng =
        some (("", some (GoError.wrap "failed to generate random number" e)),
          rng + j + 1)) ∧
    (∀ (rd : RandReader) (length : Int) (rng : Nat) (r : (String × Option GoError) × Nat),
      GenerateShortCode rd length rng = some r → r.1.2 ≠ none → r.1.1 = "") ∧
    (∀ {σ : Type} (repo : LinkRepository σ) (rd : RandReader) (now : Nat) (longURL : String)
      (w : World σ) (k : Nat) (code : String) (e : GoError), 1 ≤ k →
      ((CreateLink repo rd now longURL w).events.filter Event.isGenerate)[k - 1]?
        = some (Event.generate 6 code (some e)) →
      (CreateLink repo rd now longURL w).ret =
        (none, some (GoError.wrap "failed to generate short code" e)) ∧
      (CreateLink repo rd now longURL w).events.countP Event.isGenerate = k ∧
      (CreateLink repo rd now longURL w).events.countP Event.isLookup = k - 1 ∧
      (CreateLink repo rd now longURL w).events.countP Event.isInsert = 0 ∧
      (CreateLink repo rd now longURL w).events.getLast?
        = some (Event.generate 6 code (some e)) ∧
      k ≤ maxRetries) := by
  refine ⟨?_, ?_, ?_⟩
  · intro rd length rng j e hmax hj hok herr
    rw [GenerateShortCode_eq, if_pos hmax]
    unfold fillAndReturn
    simp only [fillBytes_error_at rd _ rng j e hj hok herr]
  · intro rd length rng r hr herr
    rw [GenerateShortCode_eq] at hr
    by_cases hmax : (if length ≤ 0 then 6 else length) ≤ (maxAlloc : Int)
    · rw [if_pos hmax] at hr
      simp only [Option.some.injEq] at hr
      subst hr
      exact (fillAndReturn_inv rd _ rng).2 herr
    · rw [if_neg hmax] at hr
      simp at hr
  · intro σ repo rd now longURL w k code e hk hgen
    rw [CreateLink_filter_isGenerate] at hgen
    obtain ⟨h1, h2, h3, h4, h5⟩ :=
      retryLoop_generate_error repo rd maxRetries w (k - 1) code e hgen
    rw [CreateLink_of_returned repo rd now longURL w _ h1]
    have hk1 : k - 1 + 1 = k := by omega
    rw [hk1] at h2 h5
    exact ⟨rfl, h2, h3, retryLoop_no_insert repo rd maxRetries w, h4, h5⟩

/-! ### The in-memory store -/

theorem mem_lookup (s : Store) (shortCode : String) :
    memLinkRepository.GetLinkByShortCode s shortCode =
      match s.links.find? (fun l => decide (l.ShortCode = shortCode)) with
      | some l => (Except.ok l, s)
      | none => (Except.error GoError.ErrRecordNotFound, s) := rfl

theorem mem_count (s : Store) (linkID : Nat) :
    memLinkRepository.CountClicksByLinkID s linkID =
      (Except.ok (Int.ofNat (s.clicks.countP (fun c => decide (c.LinkID = linkID)))), s) := rfl

theorem find_shortCode_none (links : List Link) (code : String) :
    links.find? (fun l => decide (l.ShortCode = code)) = none ↔
      code ∉ links.map Link.ShortCode := by
  induction links with
  | nil => simp
  | cons a as ih =>
    by_cases h : a.ShortCode = code
    · simp [List.find?_cons, h]
    · simp only [List.find?_cons, h, decide_False, List.map_cons, List.mem_cons, not_or]
      rw [ih]
      constructor
      · intro h2; exact ⟨fun h3 => h h3.symm, h2⟩
      · intro h2; exact h2.2

theorem find_shortCode_of_nodup (links : List Link)
    (hnd : (links.map Link.ShortCode).Nodup) (a : Link) (ha : a ∈ links) :
    links.find? (fun l => decide (l.ShortCode = a.ShortCode)) = some a := by
  induction links with
  | nil => simp at ha
  | cons b bs ih =>
    simp only [List.map_cons, List.nodup_cons] at hnd
    rcases List.mem_cons.mp ha with hab | hab
    · subst hab; simp [List.find?_cons]
    · have hne : b.ShortCode ≠ a.ShortCode := by
        intro heq
        exact hnd.1 (heq ▸ List.mem_map_of_mem Link.ShortCode hab)
      simp only [List.find?_cons, hne, decide_False]
      exact ih hnd.2 hab

theorem find_shortCode_append_new (links : List Link) (a : Link)
    (hnew : a.ShortCode ∉ links.map Link.ShortCode) :
    (links ++ [a]).find? (fun l => decide (l.ShortCode = a.ShortCode)) = some a := by
  rw [List.find?_append, (find_shortCode_none links a.ShortCode).mpr hnew]
  simp [List.find?_cons]

theorem retryLoop_mem (rd : RandReader) :
    ∀ (n : Nat) (w : World Store),
      (retryLoop memLinkRepository rd n w).world.db = w.db ∧
      ∀ code, (retryLoop memLinkRepository rd n w).ret = LoopExit.exited code →
        code ≠ "" → code ∉ w.db.links.map Link.ShortCode := by
  intro n
  induction n with
  | zero => intro w; simp [retryLoop]
  | succ n ih =>
    intro w
    cases hg : (fillAndReturn rd 6 w.rng).1.2 with
    | some ge =>
      rw [retryLoop_succ_genErr memLinkRepository rd n w ge hg]
      simp
    | none =>
      have hdb : ∀ code, (memLinkRepository.GetLinkByShortCode w.db code).2 = w.db := by
        intro code
        simp only [memLinkRepository]
        split <;> rfl
      cases hl : (memLinkRepository.GetLinkByShortCode w.db
          (fillAndReturn rd 6 w.rng).1.1).1 with
      | error le =>
        rw [retryLoop_succ_lookupErr memLinkRepository rd n w le hg hl]
        refine ⟨hdb _, ?_⟩
        intro code hc _
        simp only [memLinkRepository] at hl
        split at hl
        · simp at hl
        · rename_i hnone
          simp only [Except.error.injEq] at hl
          subst hl
          simp [errorsIs] at hc
          subst hc
          exact (find_shortCode_none _ _).mp hnone
      | ok l =>
        rw [retryLoop_succ_found memLinkRepository rd n w l hg hl]
        have := ih ⟨(memLinkRepository.GetLinkByShortCode w.db
          (fillAndReturn rd 6 w.rng).1.1).2, (fillAndReturn rd 6 w.rng).2⟩
        simp only [hdb] at this ⊢
        exact this

/-- Over the in-memory store `CreateLink` either returns no link and leaves the store as
it was, or returns a link with a short code that was not stored, the input URL, and
appends exactly that link. -/
theorem CreateLink_mem (rd : RandReader) (now : Nat) (longURL : String) (w : World Store) :
    ((CreateLink memLinkRepository rd now longURL w).ret.1 = none ∧
      (CreateLink memLinkRepository rd now longURL w).ret.2 ≠ none ∧
      (CreateLink memLinkRepository rd now longURL w).world.db = w.db) ∨
    (∃ l, (CreateLink memLinkRepository rd now longURL w).ret = (some l, none) ∧
      (CreateLink memLinkRepository rd now longURL w).world.db =
        ⟨w.db.links ++ [l], w.db.clicks⟩ ∧
      l.ShortCode ∉ w.db.links.map Link.ShortCode ∧ l.LongURL = longURL) := by
  obtain ⟨hdb, hnew⟩ := retryLoop_mem rd maxRetries w
  rcases CreateLink_cases memLinkRepository rd now longURL w with
    ⟨e, _, h⟩ | ⟨_, h⟩ | ⟨code, e, _, _, hi, _⟩ | ⟨code, id, hc, hr, hi, h⟩
  · left; rw [h]; simp [hdb]
  · left; rw [h]; simp [hdb]
  · simp [memLinkRepository] at hi
  · right
    have hmem : memLinkRepository.CreateLink w.db ⟨0, code, longURL, now, []⟩ =
        (Except.ok (nextLinkID w.db),
          ⟨w.db.links ++ [⟨nextLinkID w.db, code, longURL, now, []⟩], w.db.clicks⟩) := rfl
    rw [hdb] at hi h
    rw [hmem] at hi h
    simp only [Except.ok.injEq] at hi
    subst hi
    exact ⟨⟨nextLinkID w.db, code, longURL, now, []⟩, by rw [h], by rw [h],
      hnew code hr hc, rfl⟩

theorem createLinks_mem (rd : RandReader) :
    ∀ (reqs : List (String × Nat)) (w : World Store),
      (createLinks memLinkRepository rd reqs w).2.db.links =
        w.db.links ++ returnedLinks (createLinks memLinkRepository rd reqs w).1 ∧
      ((w.db.links.map Link.ShortCode).Nodup →
        ((createLinks memLinkRepository rd reqs w).2.db.links.map Link.ShortCode).Nodup) := by
  intro reqs
  induction reqs with
  | nil => intro w; simp [createLinks, returnedLinks]
  | cons req reqs ih =>
    intro w
    obtain ⟨ih1, ih2⟩ := ih (CreateLink memLinkRepository rd req.2 req.1 w).world
    simp only [createLinks]
    rcases CreateLink_mem rd req.2 req.1 w with ⟨h1, h2, h3⟩ | ⟨l, h1, h2, h3, _⟩
    · rw [h3] at ih1 ih2
      refine ⟨?_, ih2⟩
      rw [ih1]
      congr 1
      cases hret : (CreateLink memLinkRepository rd req.2 req.1 w).ret with
      | mk a b =>
        rw [hret] at h1 h2
        simp only at h1 h2
        subst h1
        simp [returnedLinks]
    · rw [h2] at ih1 ih2
      simp only at ih1 ih2
      constructor
      · rw [ih1, h1]
        simp [returnedLinks]
      · intro hnd
        apply ih2
        rw [List.map_append, List.nodup_append]
        refine ⟨hnd, by simp, ?_⟩
        intro a ha hb
        simp only [List.map_cons, List.map_nil, List.mem_singleton] at hb
        subst hb
        exact h3 ha

/-- Claim C3. Over the in-memory store, starting from stored short codes that are pairwise
distinct, any sequence of `CreateLink` calls made one after the other leaves the stored
short codes pairwise distinct, and the links returned without error have pairwise distinct
short codes. -/
theorem createLinks_shortCodes_distinct (rd : RandReader) (reqs : List (String × Nat))
    (w : World Store) (hnd : (w.db.links.map Link.ShortCode).Nodup) :
    ((createLinks memLinkRepository rd reqs w).2.db.links.map Link.ShortCode).Nodup ∧
    ((returnedLinks (createLinks memLinkRepository rd reqs w).1).map Link.ShortCode).Nodup := by
  obtain ⟨h1, h2⟩ := createLinks_mem rd reqs w
  have hfinal := h2 hnd
  refine ⟨hfinal, ?_⟩
  rw [h1, List.map_append] at hfinal
  exact (List.nodup_append.mp hfinal).2.1

/-- Claim C9. Over the in-memory store, when `CreateLink longURL` returns a link `L` with a
nil error, `GetLinkByShortCode L.ShortCode` on the world it left succeeds with a link whose
`LongURL` is `longURL` and whose `ShortCode` is that of `L`. -/
theorem CreateLink_then_lookup (rd : RandReader) (now : Nat) (longURL : String)
    (w : World Store) (L : Link)
    (h : (CreateLink memLinkRepository rd now longURL w).ret = (some L, none)) :
    ∃ found : Link,
      (GetLinkByShortCode memLinkRepository L.ShortCode
        (CreateLink memLinkRepository rd now longURL w).world).ret = (some found, none) ∧
      found.LongURL = longURL ∧ found.ShortCode = L.ShortCode := by
  rcases CreateLink_mem rd now longURL w with ⟨h1, _, _⟩ | ⟨l, h1, h2, h3, h4⟩
  · rw [h] at h1; simp at h1
  · rw [h1] at h
    simp only [Prod.mk.injEq, Option.some.injEq, and_true] at h
    subst h
    refine ⟨l, ?_, h4, rfl⟩
    have hfind := find_shortCode_append_new w.db.links l h3
    simp only [GetLinkByShortCode, mem_lookup, h2, hfind, lookupLink, errOf]

/-- Claim C6 fails on the code. With a reader that never fails, `GenerateShortCode` called
with the largest `int`, 9223372036854775807, does not return: `make([]byte, length)`
panics, the length being above `maxAlloc`. -/
theorem GenerateShortCode_panics_on_huge_length :
    (∀ i, ∃ num, cyclicReader i = Except.ok num) ∧
    (0 : Int) < 9223372036854775807 ∧
    GenerateShortCode cyclicReader 9223372036854775807 0 = none :=
  ⟨fun _ => ⟨_, rfl⟩, by decide, by decide⟩

/-- Claim C6, amended. When no draw fails, `GenerateShortCode` returns a nil error and a
code of exactly 6 characters for every `length` that is zero or negative, and a nil error
and a code of exactly `length` characters for every positive `length` up to `maxAlloc`,
having made that many draws; for a `length` above `maxAlloc` it does not return. -/
theorem GenerateShortCode_length (rd : RandReader)
    (hrd : ∀ i, ∃ num, rd i = Except.ok num) (length : Int) (rng : Nat) :
    (length ≤ 0 → ∃ code,
      GenerateShortCode rd length rng = some ((code, none), rng + 6) ∧ code.length = 6) ∧
    (0 < length → length ≤ (maxAlloc : Int) → ∃ code,
      GenerateShortCode rd length rng = some ((code, none), rng + length.toNat) ∧
      (code.length : Int) = length) ∧
    ((maxAlloc : Int) < length → GenerateShortCode rd length rng = none) := by
  have hret : ∀ n : Nat, ∃ code,
      fillAndReturn rd n rng = ((code, none), rng + n) ∧ code.length = n := by
    intro n
    have hnil := fillAndReturn_total rd hrd n rng
    obtain ⟨h1, _, h3⟩ := (fillAndReturn_inv rd n rng).1 hnil
    refine ⟨(fillAndReturn rd n rng).1.1, ?_, h1⟩
    rw [← hnil, ← h3]
  refine ⟨?_, ?_, ?_⟩
  · intro hle
    obtain ⟨code, hc, hl⟩ := hret 6
    refine ⟨code, ?_, hl⟩
    rw [GenerateShortCode_eq]
    simp only [hle, if_true]
    rw [if_pos (by decide)]
    exact congrArg some hc
  · intro hpos hmax
    obtain ⟨code, hc, hl⟩ := hret length.toNat
    refine ⟨code, ?_, by omega⟩
    have hnot : ¬ length ≤ 0 := by omega
    rw [GenerateShortCode_eq]
    simp only [hnot, if_false]
    rw [if_pos hmax]
    exact congrArg some hc
  · intro hbig
    have hnot : ¬ length ≤ 0 := by
      have : (0 : Int) ≤ (maxAlloc : Int) := Int.ofNat_nonneg _
      omega
    have hnot2 : ¬ length ≤ (maxAlloc : Int) := by omega
    rw [GenerateShortCode_eq]
    simp only [hnot, if_false]
    rw [if_neg hnot2]

/-- Claim C7. Over the in-memory store with pairwise distinct short codes: when `M` stored
clicks carry the ID of the stored link `A` and none carries the ID of the stored link `B`,
`GetLinkStats` returns `(A, M, nil)` for the short code of `A` and `(B, 0, nil)` for that of
`B`. In general a successful `GetLinkStats` returns a stored link with the short code asked
for and the number of stored clicks whose `LinkID` is the ID of that link. -/
theorem GetLinkStats_counts_clicks :
    (∀ (s : Store) (rng : Nat) (A B : Link) (M : Nat),
      A ∈ s.links → B ∈ s.links → (s.links.map Link.ShortCode).Nodup →
      s.clicks.countP (fun c => decide (c.LinkID = A.ID)) = M →
      s.clicks.countP (fun c => decide (c.LinkID = B.ID)) = 0 →
      (GetLinkStats memLinkRepository A.ShortCode ⟨s, rng⟩).ret = (some A, (M : Int), none) ∧
      (GetLinkStats memLinkRepository B.ShortCode ⟨s, rng⟩).ret = (some B, 0, none)) ∧
    (∀ (s : Store) (rng : Nat) (shortCode : String) (link : Link) (total : Int),
      (GetLinkStats memLinkRepository shortCode ⟨s, rng⟩).ret = (some link, total, none) →
      total = ((s.clicks.countP (fun c => decide (c.LinkID = link.ID)) : Nat) : Int) ∧
      link ∈ s.links ∧ link.ShortCode = shortCode) := by
  have hstats : ∀ (s : Store) (rng : Nat) (A : Link), A ∈ s.links →
      (s.links.map Link.ShortCode).Nodup →
      (GetLinkStats memLinkRepository A.ShortCode ⟨s, rng⟩).ret =
        (some A, ((s.clicks.countP (fun c => decide (c.LinkID = A.ID)) : Nat) : Int),
          none) := by
    intro s rng A hA hnd
    have hfind := find_shortCode_of_nodup s.links hnd A hA
    simp only [GetLinkStats, mem_lookup, mem_count, hfind]
    rfl
  constructor
  · intro s rng A B M hA hB hnd hM hZ
    refine ⟨?_, ?_⟩
    · rw [hstats s rng A hA hnd, hM]
    · rw [hstats s rng B hB hnd, hZ]; rfl
  · intro s rng shortCode link total h
    simp only [GetLinkStats, mem_lookup, mem_count] at h
    cases hfind : s.links.find? (fun l => decide (l.ShortCode = shortCode)) with
    | none => rw [hfind] at h; simp at h
    | some l =>
      rw [hfind] at h
      simp only [Prod.mk.injEq, Option.some.injEq, and_true] at h
      obtain ⟨hl, ht⟩ := h
      subst hl
      refine ⟨ht.symm, List.mem_of_find?_eq_some hfind, ?_⟩
      simpa using List.find?_some hfind

theorem retryLoop_filter_not_insert {σ : Type} (repo : LinkRepository σ) (rd : RandReader)
    (n : Nat) (w : World σ) :
    (retryLoop repo rd n w).events.filter (fun ev => !ev.isInsert) =
      (retryLoop repo rd n w).events := by
  rw [List.filter_eq_self]
  intro ev hev
  have h0 := retryLoop_no_insert repo rd n w
  rw [List.countP_eq_zero] at h0
  simpa using h0 ev hev

theorem retryLoop_returned {σ : Type} (repo : LinkRepository σ) (rd : RandReader) :
    ∀ (n : Nat) (w : World σ) (e : GoError),
      (retryLoop repo rd n w).ret = LoopExit.returned e →
      (∃ e1, e = GoError.wrap "failed to generate short code" e1) ∨
      (∃ e1, e = GoError.wrap "database error checking short code uniqueness" e1) := by
  intro n
  induction n with
  | zero => intro w e h; simp [retryLoop] at h
  | succ n ih =>
    intro w e h
    cases hg : (fillAndReturn rd 6 w.rng).1.2 with
    | some ge =>
      rw [retryLoop_succ_genErr repo rd n w ge hg] at h
      simp only [LoopExit.returned.injEq] at h
      exact Or.inl ⟨ge, h.symm⟩
    | none =>
      cases hl : (repo.GetLinkByShortCode w.db (fillAndReturn rd 6 w.rng).1.1).1 with
      | error le =>
        rw [retryLoop_succ_lookupErr repo rd n w le hg hl] at h
        simp only at h
        split at h
        · simp at h
        · simp only [LoopExit.returned.injEq] at h
          exact Or.inr ⟨le, h.symm⟩
      | ok l =>
        rw [retryLoop_succ_found repo rd n w l hg hl] at h
        exact ih _ e h

/-- Claim C4 fails on the code. On an empty store `CreateLink "not-a-valid-url"` and
`CreateLink ""` both generate a code, look it up, insert the link and return it with a nil
error: nothing is rejected. -/
theorem CreateLink_accepts_invalid_url :
    (CreateLink memLinkRepository cyclicReader 0 "not-a-valid-url" ⟨⟨[], []⟩, 0⟩).ret =
      (some ⟨1, "abcdef", "not-a-valid-url", 0, []⟩, none) ∧
    (CreateLink memLinkRepository cyclicReader 0 "not-a-valid-url" ⟨⟨[], []⟩, 0⟩).events =
      [Event.generate 6 "abcdef" none,
        Event.lookup "abcdef" none (some GoError.ErrRecordNotFound),
        Event.insert ⟨0, "abcdef", "not-a-valid-url", 0, []⟩ none] ∧
    (CreateLink memLinkRepository cyclicReader 0 "" ⟨⟨[], []⟩, 0⟩).ret =
      (some ⟨1, "abcdef", "", 0, []⟩, none) ∧
    (CreateLink memLinkRepository cyclicReader 0 "" ⟨⟨[], []⟩, 0⟩).events =
      [Event.generate 6 "abcdef" none,
        Event.lookup "abcdef" none (some GoError.ErrRecordNotFound),
        Event.insert ⟨0, "abcdef", "", 0, []⟩ none] := by
  decide

theorem CreateLink_shortCode_shape_witness :
    (CreateLink memLinkRepository cyclicReader 0 "https://example.com" ⟨⟨[], []⟩, 0⟩).ret =
      (some ⟨1, "abcdef", "https://example.com", 0, []⟩, none) ∧
    ((⟨1, "abcdef", "https://example.com", 0, []⟩ : Link).ShortCode.length = 6 ∧
      (⟨1, "abcdef", "https://example.com", 0, []⟩ : Link).ShortCode.length
        ≤ shortCodeMaxSize ∧
      charset.length = 62 ∧
      ∀ c ∈ (⟨1, "abcdef", "https://example.com", 0, []⟩ : Link).ShortCode.data,
        c ∈ charset.data) :=
  ⟨by decide,
    CreateLink_shortCode_shape memLinkRepository cyclicReader 0 "https://example.com"
      ⟨⟨[], []⟩, 0⟩ ⟨1, "abcdef", "https://example.com", 0, []⟩ (by decide)⟩

theorem createLinks_shortCodes_distinct_witness :
    (([⟨1, "abcdef", "https://taken.example", 0, []⟩] : List Link).map Link.ShortCode).Nodup ∧
    (((createLinks memLinkRepository cyclicReader
        [("https://a.example", 1), ("https://b.example", 2)]
        ⟨⟨[⟨1, "abcdef", "https://taken.example", 0, []⟩], []⟩, 0⟩).2.db.links.map
          Link.ShortCode).Nodup ∧
      ((returnedLinks (createLinks memLinkRepository cyclicReader
        [("https://a.example", 1), ("https://b.example", 2)]
        ⟨⟨[⟨1, "abcdef", "https://taken.example", 0, []⟩], []⟩, 0⟩).1).map
          Link.ShortCode).Nodup) :=
  ⟨by decide,
    createLinks_shortCodes_distinct cyclicReader
      [("https://a.example", 1), ("https://b.example", 2)]
      ⟨⟨[⟨1, "abcdef", "https://taken.example", 0, []⟩], []⟩, 0⟩ (by decide)⟩

theorem CreateLink_lookup_error_aborts_witness :
    1 ≤ 2 ∧
    ((CreateLink scriptedRepository cyclicReader 0 "https://example.com"
      ⟨[Except.ok ⟨1, "abcdef", "https://taken.example", 0, []⟩,
        Except.error (GoError.other "connection refused")], 0⟩).events.filter
          Event.isLookup)[2 - 1]?
      = some (Event.lookup "ghijkl" none (some (GoError.other "connection refused"))) ∧
    errorsIs (GoError.other "connection refused") GoError.ErrRecordNotFound = false ∧
    ((CreateLink scriptedRepository cyclicReader 0 "https://example.com"
      ⟨[Except.ok ⟨1, "abcdef", "https://taken.example", 0, []⟩,
        Except.error (GoError.other "connection refused")], 0⟩).ret =
      (none, some (GoError.wrap "database error checking short code uniqueness"
        (GoError.other "connection refused"))) ∧
    (CreateLink scriptedRepository cyclicReader 0 "https://example.com"
      ⟨[Except.ok ⟨1, "abcdef", "https://taken.example", 0, []⟩,
        Except.error (GoError.other "connection refused")], 0⟩).events.countP
          Event.isLookup = 2 ∧
    (CreateLink scriptedRepository cyclicReader 0 "https://example.com"
      ⟨[Except.ok ⟨1, "abcdef", "https://taken.example", 0, []⟩,
        Except.error (GoError.other "connection refused")], 0⟩).events.countP
          Event.isGenerate = 2 ∧
    (CreateLink scriptedRepository cyclicReader 0 "https://example.com"
      ⟨[Except.ok ⟨1, "abcdef", "https://taken.example", 0, []⟩,
        Except.error (GoError.other "connection refused")], 0⟩).events.countP
          Event.isInsert = 0 ∧
    (CreateLink scriptedRepository cyclicReader 0 "https://example.com"
      ⟨[Except.ok ⟨1, "abcdef", "https://taken.example", 0, []⟩,
        Except.error (GoError.other "connection refused")], 0⟩).events.getLast?
      = some (Event.lookup "ghijkl" none (some (GoError.other "connection refused"))) ∧
    2 ≤ maxRetries) :=
  ⟨by decide, by decide, by decide,
    CreateLink_lookup_error_aborts scriptedRepository cyclicReader 0 "https://example.com"
      ⟨[Except.ok ⟨1, "abcdef", "https://taken.example", 0, []⟩,
        Except.error (GoError.other "connection refused")], 0⟩
      2 "ghijkl" (GoError.other "connection refused") (by decide) (by decide) (by decide)⟩

theorem GenerateShortCode_length_witness :
    (∀ i, ∃ num, cyclicReader i = Except.ok num) ∧
    (-3 : Int) ≤ 0 ∧
    (∃ code, GenerateShortCode cyclicReader (-3) 0 = some ((code, none), 0 + 6) ∧
      code.length = 6) ∧
    GenerateShortCode cyclicReader (-3) 0 = some (("abcdef", none), 6) ∧
    (0 : Int) < 4 ∧ (4 : Int) ≤ (maxAlloc : Int) ∧
    (∃ code, GenerateShortCode cyclicReader 4 60 = some ((code, none), 60 + (4 : Int).toNat) ∧
      (code.length : Int) = 4) ∧
    GenerateShortCode cyclicReader 4 60 = some (("89ab", none), 64) :=
  ⟨fun _ => ⟨_, rfl⟩, by decide,
    (GenerateShortCode_length cyclicReader (fun _ => ⟨_, rfl⟩) (-3) 0).1 (by decide),
    by decide, by decide, by decide,
    (GenerateShortCode_length cyclicReader (fun _ => ⟨_, rfl⟩) 4 60).2.1
      (by decide) (by decide),
    by decide⟩

theorem GetLinkStats_counts_clicks_witness :
    (⟨1, "abcdef", "https://a.example", 0, []⟩ : Link) ∈
      ([⟨1, "abcdef", "https://a.example", 0, []⟩,
        ⟨2, "ghijkl", "https://b.example", 0, []⟩] : List Link) ∧
    (GetLinkStats memLinkRepository "abcdef"
      ⟨⟨[⟨1, "abcdef", "https://a.example", 0, []⟩, ⟨2, "ghijkl", "https://b.example", 0, []⟩],
        [⟨1, 1, 10, "agent", "127.0.0.1"⟩, ⟨2, 1, 11, "agent", "127.0.0.1"⟩,
          ⟨3, 1, 12, "", ""⟩]⟩, 0⟩).ret =
      (some ⟨1, "abcdef", "https://a.example", 0, []⟩, ((3 : Nat) : Int), none) ∧
    (GetLinkStats memLinkRepository "ghijkl"
      ⟨⟨[⟨1, "abcdef", "https://a.example", 0, []⟩, ⟨2, "ghijkl", "https://b.example", 0, []⟩],
        [⟨1, 1, 10, "agent", "127.0.0.1"⟩, ⟨2, 1, 11, "agent", "127.0.0.1"⟩,
          ⟨3, 1, 12, "", ""⟩]⟩, 0⟩).ret =
      (some ⟨2, "ghijkl", "https://b.example", 0, []⟩, 0, none) :=
  ⟨by decide,
    GetLinkStats_counts_clicks.1
      ⟨[⟨1, "abcdef", "https://a.example", 0, []⟩, ⟨2, "ghijkl", "https://b.example", 0, []⟩],
        [⟨1, 1, 10, "agent", "127.0.0.1"⟩, ⟨2, 1, 11, "agent", "127.0.0.1"⟩,
          ⟨3, 1, 12, "", ""⟩]⟩
      0 ⟨1, "abcdef", "https://a.example", 0, []⟩ ⟨2, "ghijkl", "https://b.example", 0, []⟩ 3
      (by decide) (by decide) (by decide) (by decide) (by decide)⟩

theorem CreateLink_then_lookup_witness :
    (CreateLink memLinkRepository cyclicReader 0 "https://example.com" ⟨⟨[], []⟩, 0⟩).ret =
      (some ⟨1, "abcdef", "https://example.com", 0, []⟩, none) ∧
    ∃ found : Link,
      (GetLinkByShortCode memLinkRepository
        (⟨1, "abcdef", "https://example.com", 0, []⟩ : Link).ShortCode
        (CreateLink memLinkRepository cyclicReader 0 "https://example.com"
          ⟨⟨[], []⟩, 0⟩).world).ret = (some found, none) ∧
      found.LongURL = "https://example.com" ∧
      found.ShortCode = (⟨1, "abcdef", "https://example.com", 0, []⟩ : Link).ShortCode :=
  ⟨by decide,
    CreateLink_then_lookup cyclicReader 0 "https://example.com" ⟨⟨[], []⟩, 0⟩
      ⟨1, "abcdef", "https://example.com", 0, []⟩ (by decide)⟩

theorem entropy_failure_is_fatal_witness :
    (GenerateShortCode (failingReader 8) 6 6 =
      some (("", some (GoError.wrap "failed to generate random number"
        (GoError.other "entropy unavailable"))), 6 + 2 + 1)) ∧
    ((CreateLink collidingRepository (failingReader 8) 0 "https://example.com"
        ⟨(), 0⟩).ret =
      (none, some (GoError.wrap "failed to generate short code"
        (GoError.wrap "failed to generate random number"
          (GoError.other "entropy unavailable")))) ∧
      (CreateLink collidingRepository (failingReader 8) 0 "https://example.com"
        ⟨(), 0⟩).events.countP Event.isGenerate = 2 ∧
      (CreateLink collidingRepository (failingReader 8) 0 "https://example.com"
        ⟨(), 0⟩).events.countP Event.isLookup = 2 - 1 ∧
      (CreateLink collidingRepository (failingReader 8) 0 "https://example.com"
        ⟨(), 0⟩).events.countP Event.isInsert = 0 ∧
      (CreateLink collidingRepository (failingReader 8) 0 "https://example.com"
        ⟨(), 0⟩).events.getLast?
        = some (Event.generate 6 "" (some (GoError.wrap "failed to generate random number"
          (GoError.other "entropy unavailable")))) ∧
      2 ≤ maxRetries) :=
  ⟨entropy_failure_is_fatal.1 (failingReader 8) 6 6 2 (GoError.other "entropy unavailable")
      (by decide) (by decide)
      (fun i hi => by
        have hi2 : i = 0 ∨ i = 1 := by omega
        rcases hi2 with h | h <;> subst h <;> exact ⟨_, rfl⟩)
      rfl,
    entropy_failure_is_fatal.2.2 collidingRepository (failingReader 8) 0 "https://example.com"
      ⟨(), 0⟩ 2 ""
      (GoError.wrap "failed to generate random number" (GoError.other "entropy unavailable"))
      (by decide) (by decide)⟩

/-! ### The alphabet and the draws -/

theorem charset_nodup : charset.data.Nodup := by decide

theorem charset_alphanum : ∀ c ∈ charset.data, c.isAlphanum = true := by decide

theorem charsetAt_eq (d : Fin charset.length) : some (charsetAt d) = charset.data[d.val]? := by
  unfold charsetAt
  rw [List.getElem?_eq_getElem]
  rfl

theorem charsetAt_injective (d1 d2 : Fin charset.length) (h : charsetAt d1 = charsetAt d2) :
    d1 = d2 := by
  unfold charsetAt at h
  have := (List.Nodup.get_inj_iff charset_nodup).mp h
  exact Fin.ext (by simpa using congrArg Fin.val this)

theorem fillBytes_chars (rd : RandReader) :
    ∀ (n rng : Nat) (b : List Char) (rng1 : Nat),
      fillBytes rd n rng = (Except.ok b, rng1) →
      ∀ i, i < n → ∃ d, rd (rng + i) = Except.ok d ∧ b[i]? = some (charsetAt d) := by
  intro n
  induction n with
  | zero => intro rng b rng1 _ i hi; omega
  | succ n ih =>
    intro rng b rng1 h i hi
    rw [fillBytes] at h
    cases hd : rd rng with
    | error e => rw [hd] at h; simp at h
    | ok num =>
      rw [hd] at h
      simp only at h
      cases hf : fillBytes rd n (rng + 1) with
      | mk r p =>
        rw [hf] at h
        cases r with
        | error e => simp at h
        | ok b1 =>
          simp at h
          obtain ⟨hb, _⟩ := h
          subst hb
          cases i with
          | zero => exact ⟨num, by simpa using hd, by simp⟩
          | succ i =>
            obtain ⟨d, hd1, hd2⟩ := ih (rng + 1) b1 p hf i (by omega)
            refine ⟨d, ?_, by simpa using hd2⟩
            rw [← hd1]; congr 1; omega

theorem fillBytes_of_draws (rd : RandReader) :
    ∀ (ds : List (Fin charset.length)) (rng : Nat),
      (∀ i d, ds[i]? = some d → rd (rng + i) = Except.ok d) →
      fillBytes rd ds.length rng = (Except.ok (ds.map charsetAt), rng + ds.length) := by
  intro ds
  induction ds with
  | nil => intro rng _; simp [fillBytes]
  | cons d ds ih =>
    intro rng h
    have h0 : rd rng = Except.ok d := by simpa using h 0 d (by simp)
    have hrec := ih (rng + 1) (fun i d1 hi => by
      have := h (i + 1) d1 (by simpa using hi)
      rw [← this]; congr 1; omega)
    simp only [List.length_cons, fillBytes, h0, hrec, List.map_cons]
    congr 1
    omega

theorem readerOfDraws_at (ds : List (Fin charset.length)) (rng i : Nat)
    (d : Fin charset.length) (h : ds[i]? = some d) :
    readerOfDraws ds rng (rng + i) = Except.ok d := by
  unfold readerOfDraws
  simp only [Nat.add_sub_cancel_left, h]

theorem exists_draws_of_chars :
    ∀ (cs : List Char), (∀ c ∈ cs, c ∈ charset.data) →
      ∃ ds : List (Fin charset.length), ds.map charsetAt = cs := by
  intro cs
  induction cs with
  | nil => intro _; exact ⟨[], rfl⟩
  | cons c cs ih =>
    intro h
    obtain ⟨ds, hds⟩ := ih (fun c1 hc1 => h c1 (List.mem_cons_of_mem _ hc1))
    obtain ⟨k, hk⟩ := List.get_of_mem (h c (List.mem_cons_self _ _))
    refine ⟨⟨k.val, k.isLt⟩ :: ds, ?_⟩
    simp only [List.map_cons, hds, charsetAt]
    congr 1

/-- Claim C11. The constant `charset` has exactly 62 characters, pairwise distinct, each an
ASCII letter or digit. For every positive `n`, character `i` of the code returned by
`GenerateShortCode n` is `charset[d]` for the draw `d` number `i` of the call, and `d` is
below 62. The draws determine the code and the code determines the draws: two calls that
return the same code made the same `n` draws, and every string of `n` characters of the
alphabet, `n` being at most `maxAlloc` as the length of every slice is, is the code
returned for some sequence of `n` draws. -/
theorem GenerateShortCode_draws_bijection :
    (charset.data.length = 62 ∧ charset.data.Nodup ∧
      ∀ c ∈ charset.data, c.isAlphanum = true) ∧
    (∀ (rd : RandReader) (n : Int) (rng : Nat) (code : String) (rng1 : Nat), 0 < n →
      GenerateShortCode rd n rng = some ((code, none), rng1) →
      ∀ i, i < n.toNat → ∃ d : Fin charset.length,
        rd (rng + i) = Except.ok d ∧ d.val < 62 ∧
        code.data[i]? = charset.data[d.val]? ∧ code.data[i]? ≠ none) ∧
    (∀ (rd1 rd2 : RandReader) (n : Int) (rng1 rng2 : Nat) (code : String) (r1 r2 : Nat),
      0 < n →
      GenerateShortCode rd1 n rng1 = some ((code, none), r1) →
      GenerateShortCode rd2 n rng2 = some ((code, none), r2) →
      ∀ i, i < n.toNat → rd1 (rng1 + i) = rd2 (rng2 + i)) ∧
    (∀ (s : String) (rng : Nat), 0 < s.length → s.length ≤ maxAlloc →
      (∀ c ∈ s.data, c ∈ charset.data) →
      ∃ ds : List (Fin charset.length), ds.length = s.length ∧
        GenerateShortCode (readerOfDraws ds rng) (s.length : Int) rng
          = some ((s, none), rng + s.length)) := by
  have hchars : ∀ (rd : RandReader) (n : Int) (rng : Nat) (code : String) (rng1 : Nat),
      0 < n → GenerateShortCode rd n rng = some ((code, none), rng1) →
      ∀ i, i < n.toNat → ∃ d : Fin charset.length,
        rd (rng + i) = Except.ok d ∧ code.data[i]? = some (charsetAt d) := by
    intro rd n rng code rng1 hn hret i hi
    have hnot : ¬ n ≤ 0 := by omega
    rw [GenerateShortCode_eq] at hret
    simp only [hnot, if_false] at hret
    split at hret
    · simp only [Option.some.injEq] at hret
      unfold fillAndReturn at hret
      cases hf : fillBytes rd n.toNat rng with
      | mk r p =>
        rw [hf] at hret
        cases r with
        | error e => simp at hret
        | ok b =>
          simp only [Prod.mk.injEq, and_true] at hret
          obtain ⟨hcode, _⟩ := hret
          subst hcode
          exact fillBytes_chars rd n.toNat rng b p hf i hi
    · simp at hret
  refine ⟨⟨rfl, charset_nodup, charset_alphanum⟩, ?_, ?_, ?_⟩
  · intro rd n rng code rng1 hn hret i hi
    obtain ⟨d, h1, h2⟩ := hchars rd n rng code rng1 hn hret i hi
    refine ⟨d, h1, d.isLt, ?_, ?_⟩
    · rw [h2, charsetAt_eq]
    · rw [h2]; simp
  · intro rd1 rd2 n rng1 rng2 code r1 r2 hn h1 h2 i hi
    obtain ⟨d1, hd1, hc1⟩ := hchars rd1 n rng1 code r1 hn h1 i hi
    obtain ⟨d2, hd2, hc2⟩ := hchars rd2 n rng2 code r2 hn h2 i hi
    rw [hc2] at hc1
    have hd : d2 = d1 := charsetAt_injective d2 d1 (by simpa using hc1)
    rw [hd1, hd2, hd]
  · intro s rng hpos hmax hs
    obtain ⟨ds, hds⟩ := exists_draws_of_chars s.data hs
    have hlen : ds.length = s.length := by
      have hmap := congrArg List.length hds
      rw [List.length_map] at hmap
      exact hmap
    refine ⟨ds, hlen, ?_⟩
    have hfill := fillBytes_of_draws (readerOfDraws ds rng) ds rng
      (fun i d h => readerOfDraws_at ds rng i d h)
    have hnot : ¬ ((s.length : Int) ≤ 0) := by omega
    have hle : (s.length : Int) ≤ (maxAlloc : Int) := by exact_mod_cast hmax
    rw [GenerateShortCode_eq]
    simp only [hnot, if_false, Int.toNat_ofNat]
    rw [if_pos hle]
    unfold fillAndReturn
    rw [← hlen, hfill, hds]

theorem GenerateShortCode_draws_bijection_witness :
    (0 : Int) < 3 ∧
    GenerateShortCode cyclicReader 3 60 = some (("89a", none), 63) ∧
    ∀ i, i < (3 : Int).toNat → ∃ d : Fin charset.length,
      cyclicReader (60 + i) = Except.ok d ∧ d.val < 62 ∧
      ("89a" : String).data[i]? = charset.data[d.val]? ∧
      ("89a" : String).data[i]? ≠ none :=
  ⟨by decide, by decide,
    GenerateShortCode_draws_bijection.2.1 cyclicReader 3 60 "89a" 63 (by decide) (by decide)⟩

/-! ### Error paths of the statistics -/

/-- Claim C12. When the lookup of `GetLinkStats` fails with `e`, `GetLinkStats` returns
`(nil, 0, e)` with `e` itself, not wrapped, and the lookup is the only call it makes: the
click count is not queried. In particular, over the in-memory store a short code that is
not stored gives `(nil, 0, gorm.ErrRecordNotFound)`. When the lookup succeeds and the count
fails with `e`, `GetLinkStats` returns `(nil, 0, e wrapped as "failed to count clicks")`:
no link and no count. -/
theorem GetLinkStats_error_paths :
    (∀ {σ : Type} (repo : LinkRepository σ) (shortCode : String) (w : World σ)
      (e : GoError),
      (repo.GetLinkByShortCode w.db shortCode).1 = Except.error e →
      (GetLinkStats repo shortCode w).ret = (none, 0, some e) ∧
      (GetLinkStats repo shortCode w).events = [Event.lookup shortCode none (some e)] ∧
      (GetLinkStats repo shortCode w).events.countP Event.isCount = 0) ∧
    (∀ (s : Store) (rng : Nat) (shortCode : String),
      shortCode ∉ s.links.map Link.ShortCode →
      (GetLinkStats memLinkRepository shortCode ⟨s, rng⟩).ret =
        (none, 0, some GoError.ErrRecordNotFound) ∧
      (GetLinkStats memLinkRepository shortCode ⟨s, rng⟩).events.countP Event.isCount = 0) ∧
    (∀ {σ : Type} (repo : LinkRepository σ) (shortCode : String) (w : World σ)
      (link : Link) (e : GoError),
      (repo.GetLinkByShortCode w.db shortCode).1 = Except.ok link →
      (repo.CountClicksByLinkID (repo.GetLinkByShortCode w.db shortCode).2 link.ID).1
        = Except.error e →
      (GetLinkStats repo shortCode w).ret =
        (none, 0, some (GoError.wrap "failed to count clicks" e))) := by
  have hfail : ∀ {σ : Type} (repo : LinkRepository σ) (shortCode : String) (w : World σ)
      (e : GoError),
      (repo.GetLinkByShortCode w.db shortCode).1 = Except.error e →
      (GetLinkStats repo shortCode w).ret = (none, 0, some e) ∧
      (GetLinkStats repo shortCode w).events = [Event.lookup shortCode none (some e)] ∧
      (GetLinkStats repo shortCode w).events.countP Event.isCount = 0 := by
    intro σ repo shortCode w e h
    simp only [GetLinkStats, h, lookupLink, errOf]
    simp [Event.isCount]
  refine ⟨hfail, ?_, ?_⟩
  · intro s rng shortCode hnew
    have hnone := (find_shortCode_none s.links shortCode).mpr hnew
    have hlook : (memLinkRepository.GetLinkByShortCode s shortCode).1
        = Except.error GoError.ErrRecordNotFound := by
      rw [mem_lookup, hnone]
    obtain ⟨h1, _, h3⟩ := hfail memLinkRepository shortCode ⟨s, rng⟩ _ hlook
    exact ⟨h1, h3⟩
  · intro σ repo shortCode w link e hl hc
    simp only [GetLinkStats, hl, hc]

theorem GetLinkStats_error_paths_witness :
    ("nonexistent" ∉ ([⟨1, "abcdef", "https://a.example", 0, []⟩] : List Link).map
      Link.ShortCode) ∧
    ((GetLinkStats memLinkRepository "nonexistent"
        ⟨⟨[⟨1, "abcdef", "https://a.example", 0, []⟩], []⟩, 0⟩).ret =
      (none, 0, some GoError.ErrRecordNotFound) ∧
      (GetLinkStats memLinkRepository "nonexistent"
        ⟨⟨[⟨1, "abcdef", "https://a.example", 0, []⟩], []⟩, 0⟩).events.countP
          Event.isCount = 0) ∧
    (GetLinkStats countFailingRepository "abcdef"
        ⟨⟨[⟨1, "abcdef", "https://a.example", 0, []⟩], []⟩, 0⟩).ret =
      (none, 0, some (GoError.wrap "failed to count clicks"
        (GoError.other "database is locked"))) :=
  ⟨by decide,
    GetLinkStats_error_paths.2.1 ⟨[⟨1, "abcdef", "https://a.example", 0, []⟩], []⟩ 0
      "nonexistent" (by decide),
    GetLinkStats_error_paths.2.2 countFailingRepository "abcdef"
      ⟨⟨[⟨1, "abcdef", "https://a.example", 0, []⟩], []⟩, 0⟩
      ⟨1, "abcdef", "https://a.example", 0, []⟩ (GoError.other "database is locked")
      rfl rfl⟩

/-! ### What `CreateLink` leaves untouched -/

theorem retryLoop_exited_after_notFound {σ : Type} (repo : LinkRepository σ)
    (rd : RandReader) :
    ∀ (n : Nat) (w : World σ) (code : String),
      (retryLoop repo rd n w).ret = LoopExit.exited code → code ≠ "" →
      ∃ before e,
        (retryLoop repo rd n w).events = before ++ [Event.lookup code none (some e)] ∧
        errorsIs e GoError.ErrRecordNotFound = true := by
  intro n
  induction n with
  | zero =>
    intro w code h hne
    simp [retryLoop] at h
    exact absurd h.symm hne
  | succ n ih =>
    intro w code h hne
    cases hg : (fillAndReturn rd 6 w.rng).1.2 with
    | some ge =>
      rw [retryLoop_succ_genErr repo rd n w ge hg] at h
      simp at h
    | none =>
      cases hl : (repo.GetLinkByShortCode w.db (fillAndReturn rd 6 w.rng).1.1).1 with
      | error le =>
        rw [retryLoop_succ_lookupErr repo rd n w le hg hl] at h ⊢
        simp only at h
        by_cases hnf : errorsIs le GoError.ErrRecordNotFound = true
        · simp only [hnf, if_true, LoopExit.exited.injEq] at h
          subst h
          exact ⟨[Event.generate 6 (fillAndReturn rd 6 w.rng).1.1 none], le, rfl, hnf⟩
        · simp [hnf] at h
      | ok l =>
        rw [retryLoop_succ_found repo rd n w l hg hl] at h ⊢
        obtain ⟨before, e, hev, hnf⟩ := ih _ code h hne
        refine ⟨Event.generate 6 (fillAndReturn rd 6 w.rng).1.1 none ::
          Event.lookup (fillAndReturn rd 6 w.rng).1.1 (some l) none :: before, e, ?_, hnf⟩
        simp only [hev, List.cons_append]

/-- Claim C15. For every repository, entropy source and input: `CreateLink` calls the insert
at most once; an insert is its last call and comes right after a lookup of the same short
code that reported not-found, with no insert before; when the error returned is a
generation failure, a lookup failure or the exhaustion of the retries, no insert was
made; whenever the error is non-nil the link is nil; and after a failed insert
`CreateLink` returns the wrapped error without calling the insert again. Over the
in-memory store, a call that returns an error leaves the store as it was. -/
theorem CreateLink_insert_frame :
    (∀ {σ : Type} (repo : LinkRepository σ) (rd : RandReader) (now : Nat)
      (longURL : String) (w : World σ),
      (CreateLink repo rd now longURL w).events.countP Event.isInsert ≤ 1 ∧
      (∀ link insertErr,
        Event.insert link insertErr ∈ (CreateLink repo rd now longURL w).events →
        ∃ before e,
          (CreateLink repo rd now longURL w).events
            = before ++ [Event.lookup link.ShortCode none (some e),
                Event.insert link insertErr] ∧
          errorsIs e GoError.ErrRecordNotFound = true ∧
          before.countP Event.isInsert = 0) ∧
      (∀ err, (CreateLink repo rd now longURL w).ret.2 = some err →
        ((∃ e, err = GoError.wrap "failed to generate short code" e) ∨
          (∃ e, err = GoError.wrap "database error checking short code uniqueness" e) ∨
          err = GoError.other "unable to generate unique shortcode after maximum retries") →
        (CreateLink repo rd now longURL w).events.countP Event.isInsert = 0) ∧
      ((CreateLink repo rd now longURL w).ret.2 ≠ none →
        (CreateLink repo rd now longURL w).ret.1 = none) ∧
      (∀ link e, Event.insert link (some e) ∈ (CreateLink repo rd now longURL w).events →
        (CreateLink repo rd now longURL w).ret
          = (none, some (GoError.wrap "failed to create link" e)) ∧
        (CreateLink repo rd now longURL w).events.countP Event.isInsert = 1)) ∧
    (∀ (rd : RandReader) (now : Nat) (longURL : String) (w : World Store),
      (CreateLink memLinkRepository rd now longURL w).ret.2 ≠ none →
      (CreateLink memLinkRepository rd now longURL w).world.db = w.db) := by
  constructor
  · intro σ repo rd now longURL w
    have hins := retryLoop_no_insert repo rd maxRetries w
    have hnoins : ∀ link err,
        Event.insert link err ∉ (retryLoop repo rd maxRetries w).events := by
      intro link err hmem
      have h0 := hins
      rw [List.countP_eq_zero] at h0
      simpa [Event.isInsert] using h0 _ hmem
    rcases CreateLink_cases repo rd now longURL w with
      ⟨e0, _, h⟩ | ⟨_, h⟩ | ⟨c, e1, hc, hr, _, h⟩ | ⟨c, id, hc, hr, _, h⟩
    · rw [h]
      refine ⟨by simp [hins], fun link err hm => absurd hm (hnoins link err),
        fun _ _ _ => hins, fun _ => rfl, fun link e hm => absurd hm (hnoins link _)⟩
    · rw [h]
      refine ⟨by simp [hins], fun link err hm => absurd hm (hnoins link err),
        fun _ _ _ => hins, fun _ => rfl, fun link e hm => absurd hm (hnoins link _)⟩
    · obtain ⟨before, e, hev, hnf⟩ := retryLoop_exited_after_notFound repo rd _ w c hr hc
      have hbefore : before.countP Event.isInsert = 0 := by
        have h0 := hins
        rw [hev, List.countP_append] at h0
        omega
      rw [h]
      refine ⟨by simp [List.countP_append, hins, Event.isInsert], ?_, ?_, fun _ => rfl, ?_⟩
      · intro link err hm
        simp only [List.mem_append, List.mem_singleton] at hm
        rcases hm with hm | hm
        · exact absurd hm (hnoins link err)
        · simp only [Event.insert.injEq] at hm
          obtain ⟨hl, he⟩ := hm
          subst hl; subst he
          exact ⟨before, e, by simp [hev], hnf, hbefore⟩
      · intro err herr hform
        simp only [Option.some.injEq] at herr
        subst herr
        rcases hform with ⟨_, hf⟩ | ⟨_, hf⟩ | hf <;> simp at hf
      · intro link e2 hm
        simp only [List.mem_append, List.mem_singleton] at hm
        rcases hm with hm | hm
        · exact absurd hm (hnoins link _)
        · simp only [Event.insert.injEq, Option.some.injEq] at hm
          rw [hm.2]
          exact ⟨rfl, by simp [List.countP_append, hins, Event.isInsert]⟩
    · obtain ⟨before, e, hev, hnf⟩ := retryLoop_exited_after_notFound repo rd _ w c hr hc
      have hbefore : before.countP Event.isInsert = 0 := by
        have h0 := hins
        rw [hev, List.countP_append] at h0
        omega
      rw [h]
      refine ⟨by simp [List.countP_append, hins, Event.isInsert], ?_, ?_, ?_, ?_⟩
      · intro link err hm
        simp only [List.mem_append, List.mem_singleton] at hm
        rcases hm with hm | hm
        · exact absurd hm (hnoins link err)
        · simp only [Event.insert.injEq] at hm
          obtain ⟨hl, he⟩ := hm
          subst hl; subst he
          exact ⟨before, e, by simp [hev], hnf, hbefore⟩
      · intro err herr
        simp at herr
      · intro hne
        simp at hne
      · intro link e2 hm
        simp only [List.mem_append, List.mem_singleton] at hm
        rcases hm with hm | hm
        · exact absurd hm (hnoins link _)
        · simp at hm
  · intro rd now longURL w herr
    rcases CreateLink_mem rd now longURL w with ⟨_, _, h3⟩ | ⟨l, h1, _, _, _⟩
    · exact h3
    · rw [h1] at herr
      simp at herr

theorem CreateLink_insert_frame_witness :
    Event.insert ⟨0, "abcdef", "https://example.com", 7, []⟩
        (some (GoError.other "UNIQUE constraint failed: links.short_code"))
      ∈ (CreateLink insertFailingRepository cyclicReader 7 "https://example.com"
          ⟨(), 0⟩).events ∧
    ((CreateLink insertFailingRepository cyclicReader 7 "https://example.com" ⟨(), 0⟩).ret
        = (none, some (GoError.wrap "failed to create link"
            (GoError.other "UNIQUE constraint failed: links.short_code"))) ∧
      (CreateLink insertFailingRepository cyclicReader 7 "https://example.com"
        ⟨(), 0⟩).events.countP Event.isInsert = 1) ∧
    (CreateLink memLinkRepository (failingReader 0) 7 "https://example.com"
      ⟨⟨[⟨1, "abcdef", "https://taken.example", 0, []⟩], []⟩, 0⟩).ret.2 ≠ none ∧
    (CreateLink memLinkRepository (failingReader 0) 7 "https://example.com"
      ⟨⟨[⟨1, "abcdef", "https://taken.example", 0, []⟩], []⟩, 0⟩).world.db
      = ⟨[⟨1, "abcdef", "https://taken.example", 0, []⟩], []⟩ :=
  ⟨by decide,
    (CreateLink_insert_frame.1 insertFailingRepository cyclicReader 7 "https://example.com"
      ⟨(), 0⟩).2.2.2.2 ⟨0, "abcdef", "https://example.com", 7, []⟩
      (GoError.other "UNIQUE constraint failed: links.short_code") (by decide),
    by decide,
    CreateLink_insert_frame.2 (failingReader 0) 7 "https://example.com"
      ⟨⟨[⟨1, "abcdef", "https://taken.example", 0, []⟩], []⟩, 0⟩ (by decide)⟩

/-! ### The worker pool -/

theorem attemptEvents_counts {σ : Type} (repo : LinkRepository σ) :
    ∀ (codes : List String) (s : σ),
      (attemptEvents repo codes s).countP Event.isGenerate = codes.length ∧
      (attemptEvents repo codes s).countP Event.isLookup = codes.length ∧
      (attemptEvents repo codes s).countP Event.isInsert = 0 ∧
      (attemptEvents repo codes s).length = 2 * codes.length := by
  intro codes
  induction codes with
  | nil => intro s; simp [attemptEvents]
  | cons c cs ih =>
    intro s
    obtain ⟨h1, h2, h3, h4⟩ := ih (repo.GetLinkByShortCode s c).2
    refine ⟨?_, ?_, ?_, ?_⟩
    · simp [attemptEvents, List.countP_cons, Event.isGenerate, h1]
    · simp [attemptEvents, List.countP_cons, Event.isLookup, h2]
    · simp [attemptEvents, List.countP_cons, Event.isInsert, h3]
    · simp only [attemptEvents, List.length_cons, h4]; omega

theorem generatedCodes_succ (rd : RandReader) (n rng : Nat) :
    generatedCodes rd (n + 1) rng =
      (fillAndReturn rd 6 rng).1.1 :: generatedCodes rd n (fillAndReturn rd 6 rng).2 := by
  simp only [generatedCodes, GenerateShortCode_six]

/-- When no draw fails and every lookup finds a link, the retry loop is left after `n`
turns with the variable `shortCode` still empty, having made the `n` generations and the
`n` lookups of the generated codes on the repository. -/
theorem retryLoop_all_collide_eq {σ : Type} (repo : LinkRepository σ) (rd : RandReader)
    (hrd : ∀ i, ∃ num, rd i = Except.ok num)
    (hcol : ∀ s code, ∃ l, (repo.GetLinkByShortCode s code).1 = Except.ok l) :
    ∀ (n : Nat) (w : World σ),
      retryLoop repo rd n w =
        ⟨LoopExit.exited "",
          ⟨afterLookups repo (generatedCodes rd n w.rng) w.db, w.rng + 6 * n⟩,
          attemptEvents repo (generatedCodes rd n w.rng) w.db⟩ ∧
      (generatedCodes rd n w.rng).length = n := by
  intro n
  induction n with
  | zero => intro w; simp [retryLoop, generatedCodes, afterLookups, attemptEvents]
  | succ n ih =>
    intro w
    have hg := fillAndReturn_total rd hrd 6 w.rng
    obtain ⟨l, hl⟩ := hcol w.db (fillAndReturn rd 6 w.rng).1.1
    have hrng : (fillAndReturn rd 6 w.rng).2 = w.rng + 6 :=
      ((fillAndReturn_inv rd 6 w.rng).1 hg).2.2
    obtain ⟨h1, h2⟩ := ih
      ⟨(repo.GetLinkByShortCode w.db (fillAndReturn rd 6 w.rng).1.1).2,
        (fillAndReturn rd 6 w.rng).2⟩
    rw [retryLoop_succ_found repo rd n w l hg hl, h1, generatedCodes_succ]
    simp only [afterLookups, attemptEvents, hl, lookupLink, errOf, List.length_cons]
    simp only at h2
    refine ⟨?_, by rw [h2]⟩
    congr 2
    rw [hrng]
    omega

/-- Claim C2. When no draw fails and every lookup finds a link, `CreateLink` returns a nil
link with the error "unable to generate unique shortcode after maximum retries" after
exactly 5 generations, of 6 draws each, and exactly 5 lookups on the repository, each of
the code just generated and each answered in the state the lookup before it left: the
calls made are these 10 and no other (no insert), and the repository is left in the state
after these 5 lookups. -/
theorem CreateLink_exhausts_retries {σ : Type} (repo : LinkRepository σ) (rd : RandReader)
    (now : Nat) (longURL : String) (w : World σ)
    (hrd : ∀ i, ∃ num, rd i = Except.ok num)
    (hcol : ∀ s code, ∃ l, (repo.GetLinkByShortCode s code).1 = Except.ok l) :
    CreateLink repo rd now longURL w =
      ⟨(none, some (GoError.other "unable to generate unique shortcode after maximum retries")),
        ⟨afterLookups repo (generatedCodes rd 5 w.rng) w.db, w.rng + 5 * 6⟩,
        attemptEvents repo (generatedCodes rd 5 w.rng) w.db⟩ ∧
    (generatedCodes rd 5 w.rng).length = 5 ∧
    (CreateLink repo rd now longURL w).events.countP Event.isGenerate = 5 ∧
    (CreateLink repo rd now longURL w).events.countP Event.isLookup = 5 ∧
    (CreateLink repo rd now longURL w).events.countP Event.isInsert = 0 ∧
    (CreateLink repo rd now longURL w).events.length = 10 := by
  obtain ⟨hloop, hlen⟩ := retryLoop_all_collide_eq repo rd hrd hcol maxRetries w
  have hrun : CreateLink repo rd now longURL w =
      ⟨(none, some (GoError.other "unable to generate unique shortcode after maximum retries")),
        ⟨afterLookups repo (generatedCodes rd 5 w.rng) w.db, w.rng + 5 * 6⟩,
        attemptEvents repo (generatedCodes rd 5 w.rng) w.db⟩ := by
    simp only [CreateLink, hloop, if_true]
    simp only [maxRetries]
  obtain ⟨c1, c2, c3, c4⟩ := attemptEvents_counts repo (generatedCodes rd 5 w.rng) w.db
  have hlen5 : (generatedCodes rd 5 w.rng).length = 5 := hlen
  rw [hlen5] at c1 c2 c4
  refine ⟨hrun, hlen5, ?_, ?_, ?_, ?_⟩
  · rw [hrun]; exact c1
  · rw [hrun]; exact c2
  · rw [hrun]; exact c3
  · rw [hrun]; exact c4

theorem CreateLink_exhausts_retries_witness :
    (∀ i, ∃ num, cyclicReader i = Except.ok num) ∧
    (∀ s code, ∃ l, (tallyRepository.GetLinkByShortCode s code).1 = Except.ok l) ∧
    generatedCodes cyclicReader 5 0 = ["abcdef", "ghijkl", "mnopqr", "stuvwx", "yzABCD"] ∧
    (CreateLink tallyRepository cyclicReader 0 "https://example.com" ⟨(0, []), 0⟩).ret =
      (none, some (GoError.other "unable to generate unique shortcode after maximum retries")) ∧
    (CreateLink tallyRepository cyclicReader 0 "https://example.com"
      ⟨(0, []), 0⟩).world.db = (5, []) ∧
    (CreateLink tallyRepository cyclicReader 0 "https://example.com"
      ⟨(0, []), 0⟩).world.rng = 30 ∧
    (CreateLink tallyRepository cyclicReader 0 "https://example.com" ⟨(0, []), 0⟩).events =
      [Event.generate 6 "abcdef" none,
        Event.lookup "abcdef" (some ⟨1, "abcdef", "https://taken.example", 0, []⟩) none,
        Event.generate 6 "ghijkl" none,
        Event.lookup "ghijkl" (some ⟨2, "ghijkl", "https://taken.example", 0, []⟩) none,
        Event.generate 6 "mnopqr" none,
        Event.lookup "mnopqr" (some ⟨3, "mnopqr", "https://taken.example", 0, []⟩) none,
        Event.generate 6 "stuvwx" none,
        Event.lookup "stuvwx" (some ⟨4, "stuvwx", "https://taken.example", 0, []⟩) none,
        Event.generate 6 "yzABCD" none,
        Event.lookup "yzABCD" (some ⟨5, "yzABCD", "https://taken.example", 0, []⟩) none] ∧
    (CreateLink tallyRepository cyclicReader 0 "https://example.com" ⟨(0, []), 0⟩ =
        ⟨(none, some
            (GoError.other "unable to generate unique shortcode after maximum retries")),
          ⟨afterLookups tallyRepository (generatedCodes cyclicReader 5 0) (0, []), 0 + 5 * 6⟩,
          attemptEvents tallyRepository (generatedCodes cyclicReader 5 0) (0, [])⟩ ∧
      (generatedCodes cyclicReader 5 0).length = 5 ∧
      (CreateLink tallyRepository cyclicReader 0 "https://example.com"
        ⟨(0, []), 0⟩).events.countP Event.isGenerate = 5 ∧
      (CreateLink tallyRepository cyclicReader 0 "https://example.com"
        ⟨(0, []), 0⟩).events.countP Event.isLookup = 5 ∧
      (CreateLink tallyRepository cyclicReader 0 "https://example.com"
        ⟨(0, []), 0⟩).events.countP Event.isInsert = 0 ∧
      (CreateLink tallyRepository cyclicReader 0 "https://example.com"
        ⟨(0, []), 0⟩).events.length = 10) :=
  ⟨fun _ => ⟨_, rfl⟩, fun _ _ => ⟨_, rfl⟩, by decide, by decide, by decide, by decide,
    by decide,
    CreateLink_exhausts_retries tallyRepository cyclicReader 0 "https://example.com"
      ⟨(0, []), 0⟩ (fun _ => ⟨_, rfl⟩) (fun _ _ => ⟨_, rfl⟩)⟩

/-- When the generations return the codes `collided` and then `code`, the lookups of
`collided` find a link and the lookup of `code` reports not-found, the retry loop is left
by `break` with `code`, having made exactly these generations and lookups. -/
theorem retryLoop_accepts {σ : Type} (repo : LinkRepository σ) (rd : RandReader) :
    ∀ (collided : List String) (n : Nat) (w : World σ) (code : String) (e : GoError),
      collided.length + 1 ≤ n →
      (∀ i c, (collided ++ [code])[i]? = some c →
        GenerateShortCode rd 6 (w.rng + 6 * i) = some ((c, none), w.rng + 6 * i + 6)) →
      (∀ i c, collided[i]? = some c → ∃ l,
        (repo.GetLinkByShortCode (afterLookups repo (collided.take i) w.db) c).1
          = Except.ok l) →
      (repo.GetLinkByShortCode (afterLookups repo collided w.db) code).1 = Except.error e →
      errorsIs e GoError.ErrRecordNotFound = true →
      retryLoop repo rd n w =
        ⟨LoopExit.exited code,
          ⟨afterLookups repo (collided ++ [code]) w.db, w.rng + 6 * (collided.length + 1)⟩,
          attemptEvents repo (collided ++ [code]) w.db⟩ := by
  intro collided
  induction collided with
  | nil =>
    intro n w code e hn hgen _ hnot hIs
    cases n with
    | zero => omega
    | succ n =>
      have h0 := hgen 0 code (by simp)
      rw [GenerateShortCode_six] at h0
      simp only [Nat.mul_zero, Nat.add_zero, Option.some.injEq] at h0
      have hg : (fillAndReturn rd 6 w.rng).1.2 = none := by rw [h0]
      have hc : (fillAndReturn rd 6 w.rng).1.1 = code := by rw [h0]
      have hr : (fillAndReturn rd 6 w.rng).2 = w.rng + 6 := by rw [h0]
      simp only [afterLookups] at hnot
      rw [← hc] at hnot
      rw [retryLoop_succ_lookupErr repo rd n w e hg hnot]
      simp only [hIs, if_true, List.nil_append, afterLookups, attemptEvents, hc, hr,
        List.length_nil]
      rw [hc] at hnot
      simp [hnot, lookupLink, errOf]
  | cons c cs ih =>
    intro n w code e hn hgen hfound hnot hIs
    cases n with
    | zero => simp at hn
    | succ n =>
      have h0 := hgen 0 c (by simp)
      rw [GenerateShortCode_six] at h0
      simp only [Nat.mul_zero, Nat.add_zero, Option.some.injEq] at h0
      have hg : (fillAndReturn rd 6 w.rng).1.2 = none := by rw [h0]
      have hc : (fillAndReturn rd 6 w.rng).1.1 = c := by rw [h0]
      have hr : (fillAndReturn rd 6 w.rng).2 = w.rng + 6 := by rw [h0]
      obtain ⟨l, hl⟩ := hfound 0 c (by simp)
      simp only [List.take_zero, afterLookups] at hl
      have hl1 : (repo.GetLinkByShortCode w.db (fillAndReturn rd 6 w.rng).1.1).1
          = Except.ok l := by rw [hc]; exact hl
      have hrec := ih n ⟨(repo.GetLinkByShortCode w.db c).2, w.rng + 6⟩ code e
        (by simp only [List.length_cons] at hn; omega)
        (fun i c1 hi => by
          have := hgen (i + 1) c1 (by simpa using hi)
          have h6 : w.rng + 6 * (i + 1) = w.rng + 6 + 6 * i := by omega
          rw [h6] at this
          exact this)
        (fun i c1 hi => by
          have := hfound (i + 1) c1 (by simpa using hi)
          simpa [afterLookups] using this)
        (by simpa [afterLookups] using hnot)
        hIs
      rw [retryLoop_succ_found repo rd n w l hg hl1]
      simp only [hc, hr, hrec, List.cons_append, afterLookups, attemptEvents, hl, lookupLink,
        errOf, List.length_cons]
      congr 2
      omega

/-- Claim C14. Let `k - 1` codes `collided` and then `code` be the codes returned, each
with a nil error, by the first `k` generations of a `CreateLink` call, `k` being at most
`maxRetries`; let the repository find a link for each code of `collided`, and answer the
lookup of `code` with an error that is `gorm.ErrRecordNotFound`. Then `CreateLink` makes
exactly these `k` generations and `k` lookups, and then calls the insert of the
repository exactly once, as its last call, on the state the lookups left, with the link
whose short code is `code` and whose long URL is the input; the repository is left as
that insert leaves it; when the insert succeeds `CreateLink` returns this link, with the
primary key the insert assigned, and a nil error, and when it fails, a nil link and the
wrapped error. -/
theorem CreateLink_accepts_kth_code {σ : Type} (repo : LinkRepository σ) (rd : RandReader)
    (now : Nat) (longURL : String) (w : World σ)
    (collided : List String) (code : String) (e : GoError)
    (hk : collided.length + 1 ≤ maxRetries)
    (hgen : ∀ i c, (collided ++ [code])[i]? = some c →
      GenerateShortCode rd 6 (w.rng + 6 * i) = some ((c, none), w.rng + 6 * i + 6))
    (hfound : ∀ i c, collided[i]? = some c → ∃ l,
      (repo.GetLinkByShortCode (afterLookups repo (collided.take i) w.db) c).1
        = Except.ok l)
    (hnot : (repo.GetLinkByShortCode (afterLookups repo collided w.db) code).1
      = Except.error e)
    (hIs : errorsIs e GoError.ErrRecordNotFound = true) :
    (CreateLink repo rd now longURL w).events =
      attemptEvents repo (collided ++ [code]) w.db ++
        [Event.insert ⟨0, code, longURL, now, []⟩
          (errOf (repo.CreateLink (afterLookups repo (collided ++ [code]) w.db)
            ⟨0, code, longURL, now, []⟩).1)] ∧
    (CreateLink repo rd now longURL w).world =
      ⟨(repo.CreateLink (afterLookups repo (collided ++ [code]) w.db)
          ⟨0, code, longURL, now, []⟩).2,
        w.rng + 6 * (collided.length + 1)⟩ ∧
    (∀ id, (repo.CreateLink (afterLookups repo (collided ++ [code]) w.db)
        ⟨0, code, longURL, now, []⟩).1 = Except.ok id →
      (CreateLink repo rd now longURL w).ret = (some ⟨id, code, longURL, now, []⟩, none)) ∧
    (∀ e1, (repo.CreateLink (afterLookups repo (collided ++ [code]) w.db)
        ⟨0, code, longURL, now, []⟩).1 = Except.error e1 →
      (CreateLink repo rd now longURL w).ret
        = (none, some (GoError.wrap "failed to create link" e1))) ∧
    (CreateLink repo rd now longURL w).events.countP Event.isGenerate
      = collided.length + 1 ∧
    (CreateLink repo rd now longURL w).events.countP Event.isLookup
      = collided.length + 1 ∧
    (CreateLink repo rd now longURL w).events.countP Event.isInsert = 1 := by
  have hloop := retryLoop_accepts repo rd collided maxRetries w code e hk hgen hfound hnot hIs
  have hne : code ≠ "" := by
    have h0 := hgen collided.length code (by simp)
    rw [GenerateShortCode_six] at h0
    simp only [Option.some.injEq] at h0
    have hinv := (fillAndReturn_inv rd 6 (w.rng + 6 * collided.length)).1 (by rw [h0])
    rw [h0] at hinv
    intro hempty
    have hlen := hinv.1
    simp only [hempty] at hlen
    simp at hlen
  obtain ⟨c1, c2, c3, _⟩ := attemptEvents_counts repo (collided ++ [code]) w.db
  simp only [List.length_append, List.length_singleton] at c1 c2
  cases hins : (repo.CreateLink (afterLookups repo (collided ++ [code]) w.db)
      ⟨0, code, longURL, now, []⟩).1 with
  | error e1 =>
    have hrun : CreateLink repo rd now longURL w =
        ⟨(none, some (GoError.wrap "failed to create link" e1)),
          ⟨(repo.CreateLink (afterLookups repo (collided ++ [code]) w.db)
              ⟨0, code, longURL, now, []⟩).2, w.rng + 6 * (collided.length + 1)⟩,
          attemptEvents repo (collided ++ [code]) w.db ++
            [Event.insert ⟨0, code, longURL, now, []⟩ (some e1)]⟩ := by
      simp only [CreateLink, hloop, hne, if_false, hins, errOf]
    rw [hrun]
    refine ⟨by simp [errOf], rfl, by simp, ?_, ?_, ?_, ?_⟩
    · intro e2 he2
      simp only [Except.error.injEq] at he2
      rw [he2]
    · simp [List.countP_append, c1, Event.isGenerate]
    · simp [List.countP_append, c2, Event.isLookup]
    · simp [List.countP_append, c3, Event.isInsert]
  | ok id =>
    have hrun : CreateLink repo rd now longURL w =
        ⟨(some ⟨id, code, longURL, now, []⟩, none),
          ⟨(repo.CreateLink (afterLookups repo (collided ++ [code]) w.db)
              ⟨0, code, longURL, now, []⟩).2, w.rng + 6 * (collided.length + 1)⟩,
          attemptEvents repo (collided ++ [code]) w.db ++
            [Event.insert ⟨0, code, longURL, now, []⟩ none]⟩ := by
      simp only [CreateLink, hloop, hne, if_false, hins, errOf]
    rw [hrun]
    refine ⟨by simp [errOf], rfl, ?_, by simp, ?_, ?_, ?_⟩
    · intro id2 hid2
      simp only [Except.ok.injEq] at hid2
      rw [hid2]
    · simp [List.countP_append, c1, Event.isGenerate]
    · simp [List.countP_append, c2, Event.isLookup]
    · simp [List.countP_append, c3, Event.isInsert]

theorem CreateLink_accepts_kth_code_witness :
    (["abcdef", "ghijkl"] : List String).length + 1 ≤ maxRetries ∧
    (∀ i c, (["abcdef", "ghijkl"] ++ ["mnopqr"])[i]? = some c →
      GenerateShortCode cyclicReader 6 (0 + 6 * i) = some ((c, none), 0 + 6 * i + 6)) ∧
    (∀ i c, (["abcdef", "ghijkl"] : List String)[i]? = some c → ∃ l,
      (recordingRepository.GetLinkByShortCode
        (afterLookups recordingRepository ((["abcdef", "ghijkl"] : List String).take i)
          ([Except.ok ⟨1, "abcdef", "https://taken.example", 0, []⟩,
            Except.ok ⟨2, "ghijkl", "https://taken.example", 0, []⟩], [])) c).1
        = Except.ok l) ∧
    errorsIs GoError.ErrRecordNotFound GoError.ErrRecordNotFound = true ∧
    (CreateLink recordingRepository cyclicReader 7 "https://example.com"
      ⟨([Except.ok ⟨1, "abcdef", "https://taken.example", 0, []⟩,
        Except.ok ⟨2, "ghijkl", "https://taken.example", 0, []⟩], []), 0⟩).ret
      = (some ⟨1, "mnopqr", "https://example.com", 7, []⟩, none) ∧
    (CreateLink recordingRepository cyclicReader 7 "https://example.com"
      ⟨([Except.ok ⟨1, "abcdef", "https://taken.example", 0, []⟩,
        Except.ok ⟨2, "ghijkl", "https://taken.example", 0, []⟩], []), 0⟩).world.db
      = ([], [⟨1, "mnopqr", "https://example.com", 7, []⟩]) ∧
    (CreateLink recordingRepository cyclicReader 7 "https://example.com"
      ⟨([Except.ok ⟨1, "abcdef", "https://taken.example", 0, []⟩,
        Except.ok ⟨2, "ghijkl", "https://taken.example", 0, []⟩], []), 0⟩).world.rng = 18 ∧
    (CreateLink recordingRepository cyclicReader 7 "https://example.com"
      ⟨([Except.ok ⟨1, "abcdef", "https://taken.example", 0, []⟩,
        Except.ok ⟨2, "ghijkl", "https://taken.example", 0, []⟩], []), 0⟩).events
      = [Event.generate 6 "abcdef" none,
          Event.lookup "abcdef" (some ⟨1, "abcdef", "https://taken.example", 0, []⟩) none,
          Event.generate 6 "ghijkl" none,
          Event.lookup "ghijkl" (some ⟨2, "ghijkl", "https://taken.example", 0, []⟩) none,
          Event.generate 6 "mnopqr" none,
          Event.lookup "mnopqr" none (some GoError.ErrRecordNotFound),
          Event.insert ⟨0, "mnopqr", "https://example.com", 7, []⟩ none] ∧
    (CreateLink recordingRepository cyclicReader 7 "https://example.com"
      ⟨([Except.ok ⟨1, "abcdef", "https://taken.example", 0, []⟩,
        Except.ok ⟨2, "ghijkl", "https://taken.example", 0, []⟩], []), 0⟩).events.countP
          Event.isInsert = 1 := by
  have hgen : ∀ i c, (["abcdef", "ghijkl"] ++ ["mnopqr"])[i]? = some c →
      GenerateShortCode cyclicReader 6 (0 + 6 * i) = some ((c, none), 0 + 6 * i + 6) := by
    intro i c h
    rcases i with _ | _ | _ | i
    · simp at h; subst h; decide
    · simp at h; subst h; decide
    · simp at h; subst h; decide
    · simp at h
  have hfound : ∀ i c, (["abcdef", "ghijkl"] : List String)[i]? = some c → ∃ l,
      (recordingRepository.GetLinkByShortCode
        (afterLookups recordingRepository ((["abcdef", "ghijkl"] : List String).take i)
          ([Except.ok ⟨1, "abcdef", "https://taken.example", 0, []⟩,
            Except.ok ⟨2, "ghijkl", "https://taken.example", 0, []⟩], [])) c).1
        = Except.ok l := by
    intro i c h
    rcases i with _ | _ | i
    · exact ⟨_, rfl⟩
    · exact ⟨_, rfl⟩
    · simp at h
  exact ⟨by decide, hgen, hfound, by decide, by decide, rfl, by decide, by decide,
    (CreateLink_accepts_kth_code recordingRepository cyclicReader 7 "https://example.com"
      ⟨([Except.ok ⟨1, "abcdef", "https://taken.example", 0, []⟩,
        Except.ok ⟨2, "ghijkl", "https://taken.example", 0, []⟩], []), 0⟩
      ["abcdef", "ghijkl"] "mnopqr" GoError.ErrRecordNotFound
      (by decide) hgen hfound rfl (by decide)).2.2.2.2.2.2⟩

/-- Claim C8. A single `clickWorker` draining a finite sequence of events calls `CreateClick`
of the repository exactly once per event, in dequeue order, each time with the click that
has the `LinkID`, `Timestamp`, `UserAgent` and `IP` of the event: the repository is left in
the state these calls, made one after the other, lead to. For each event the worker logs
one line, the failure line when that call failed and the success line otherwise. This
holds for every repository: a failed call changes nothing for the later events. -/
theorem clickWorker_persists_each_event {σ : Type} (id : Int) (repo : ClickRepository σ)
    (events : List ClickEvent) (db : σ) :
    (clickWorker id repo events db).calls =
      events.map (fun event =>
        ({ ID := 0, LinkID := event.LinkID, Timestamp := event.Timestamp,
           UserAgent := event.UserAgent, IPAddress := event.IP } : Click)) ∧
    (clickWorker id repo events db).db =
      events.foldl (fun s event => (repo.CreateClick s (clickOfEvent event)).2) db ∧
    (clickWorker id repo events db).calls.length = events.length ∧
    (clickWorker id repo events db).logs.length = events.length ∧
    (∀ i event, events[i]? = some event →
      (clickWorker id repo events db).logs[i]? =
        some (match (repo.CreateClick
            ((events.take i).foldl (fun s ev => (repo.CreateClick s (clickOfEvent ev)).2) db)
            (clickOfEvent event)).1 with
          | some err => WorkerLog.failed id err
          | none => WorkerLog.recorded id event.LinkID)) := by
  induction events generalizing db with
  | nil => simp [clickWorker]
  | cons event rest ih =>
    obtain ⟨h1, h2, h3, h4, h5⟩ := ih (repo.CreateClick db (clickOfEvent event)).2
    refine ⟨?_, ?_, ?_, ?_, ?_⟩
    · simp only [clickWorker, List.map_cons]
      exact congrArg _ h1
    · simp only [clickWorker, List.foldl_cons]
      exact h2
    · simp only [clickWorker, List.length_cons]
      exact congrArg _ h3
    · simp only [clickWorker, List.length_cons]
      exact congrArg _ h4
    · intro i ev hi
      cases i with
      | zero =>
        simp only [List.getElem?_cons_zero, Option.some.injEq] at hi
        subst hi
        simp only [clickWorker, List.getElem?_cons_zero, List.take_zero, List.foldl_nil]
        rfl
      | succ i =>
        simp only [List.getElem?_cons_succ] at hi
        have := h5 i ev hi
        simp only [clickWorker, List.getElem?_cons_succ, List.take_succ_cons,
          List.foldl_cons]
        exact this

theorem clickWorker_persists_each_event_witness :
    (clickWorker 0 pickyClickRepository
      [⟨2, 10, "agent", "10.0.0.2"⟩, ⟨1, 11, "agent", "10.0.0.1"⟩, ⟨4, 12, "", ""⟩] []).db
      = [⟨0, 2, 10, "agent", "10.0.0.2"⟩, ⟨0, 4, 12, "", ""⟩] ∧
    (clickWorker 0 pickyClickRepository
      [⟨2, 10, "agent", "10.0.0.2"⟩, ⟨1, 11, "agent", "10.0.0.1"⟩, ⟨4, 12, "", ""⟩] []).calls
      = [⟨0, 2, 10, "agent", "10.0.0.2"⟩, ⟨0, 1, 11, "agent", "10.0.0.1"⟩,
          ⟨0, 4, 12, "", ""⟩] ∧
    (clickWorker 0 pickyClickRepository
      [⟨2, 10, "agent", "10.0.0.2"⟩, ⟨1, 11, "agent", "10.0.0.1"⟩, ⟨4, 12, "", ""⟩] []).logs
      = [WorkerLog.recorded 0 2, WorkerLog.failed 0 (GoError.other "constraint failed"),
          WorkerLog.recorded 0 4] ∧
    ([⟨2, 10, "agent", "10.0.0.2"⟩, ⟨1, 11, "agent", "10.0.0.1"⟩,
        ⟨4, 12, "", ""⟩] : List ClickEvent)[1]? = some ⟨1, 11, "agent", "10.0.0.1"⟩ ∧
    (clickWorker 0 pickyClickRepository
      [⟨2, 10, "agent", "10.0.0.2"⟩, ⟨1, 11, "agent", "10.0.0.1"⟩,
        ⟨4, 12, "", ""⟩] []).logs[1]? =
      some (match (pickyClickRepository.CreateClick
          ((([⟨2, 10, "agent", "10.0.0.2"⟩, ⟨1, 11, "agent", "10.0.0.1"⟩,
              ⟨4, 12, "", ""⟩] : List ClickEvent).take 1).foldl
            (fun s ev => (pickyClickRepository.CreateClick s (clickOfEvent ev)).2) [])
          (clickOfEvent ⟨1, 11, "agent", "10.0.0.1"⟩)).1 with
        | some err => WorkerLog.failed 0 err
        | none => WorkerLog.recorded 0 (⟨1, 11, "agent", "10.0.0.1"⟩ : ClickEvent).LinkID) :=
  ⟨by decide, by decide, by decide, by decide,
    (clickWorker_persists_each_event 0 pickyClickRepository
      [⟨2, 10, "agent", "10.0.0.2"⟩, ⟨1, 11, "agent", "10.0.0.1"⟩, ⟨4, 12, "", ""⟩]
      []).2.2.2.2 1 ⟨1, 11, "agent", "10.0.0.1"⟩ (by decide)⟩

/-- Claim C4, amended. `CreateLink` does not validate the long URL. Whatever the URL is
(empty and schemeless ones included): its generations and lookups are those of the retry
loop, which does not take the URL; every insert it makes and every link it returns carry
the URL unchanged; an error it returns is a generation failure, a lookup failure, the
exhaustion of the retries or an insert failure, never a validation error; and when the
first code generated is reported not-found by the repository and the insert succeeds,
`CreateLink` inserts and returns the link with that code and the URL as given, after one
generation, one lookup and one insert. -/
theorem CreateLink_does_not_validate {σ : Type} (repo : LinkRepository σ) (rd : RandReader)
    (now : Nat) (longURL : String) (w : World σ) :
    (CreateLink repo rd now longURL w).events.filter (fun ev => !ev.isInsert) =
      (retryLoop repo rd maxRetries w).events ∧
    (∀ link err, Event.insert link err ∈ (CreateLink repo rd now longURL w).events →
      link.LongURL = longURL) ∧
    (∀ link, (CreateLink repo rd now longURL w).ret.1 = some link →
      link.LongURL = longURL) ∧
    (∀ err, (CreateLink repo rd now longURL w).ret.2 = some err →
      (∃ e, err = GoError.wrap "failed to generate short code" e) ∨
      (∃ e, err = GoError.wrap "database error checking short code uniqueness" e) ∨
      err = GoError.other "unable to generate unique shortcode after maximum retries" ∨
      (∃ e, err = GoError.wrap "failed to create link" e)) ∧
    (∀ code e id,
      GenerateShortCode rd 6 w.rng = some ((code, none), w.rng + 6) →
      (repo.GetLinkByShortCode w.db code).1 = Except.error e →
      errorsIs e GoError.ErrRecordNotFound = true →
      (repo.CreateLink (repo.GetLinkByShortCode w.db code).2
        ⟨0, code, longURL, now, []⟩).1 = Except.ok id →
      CreateLink repo rd now longURL w =
        ⟨(some ⟨id, code, longURL, now, []⟩, none),
          ⟨(repo.CreateLink (repo.GetLinkByShortCode w.db code).2
              ⟨0, code, longURL, now, []⟩).2, w.rng + 6⟩,
          [Event.generate 6 code none, Event.lookup code none (some e),
            Event.insert ⟨0, code, longURL, now, []⟩ none]⟩) := by
  have hfour :
    (CreateLink repo rd now longURL w).events.filter (fun ev => !ev.isInsert) =
      (retryLoop repo rd maxRetries w).events ∧
    (∀ link err, Event.insert link err ∈ (CreateLink repo rd now longURL w).events →
      link.LongURL = longURL) ∧
    (∀ link, (CreateLink repo rd now longURL w).ret.1 = some link →
      link.LongURL = longURL) ∧
    (∀ err, (CreateLink repo rd now longURL w).ret.2 = some err →
      (∃ e, err = GoError.wrap "failed to generate short code" e) ∨
      (∃ e, err = GoError.wrap "database error checking short code uniqueness" e) ∨
      err = GoError.other "unable to generate unique shortcode after maximum retries" ∨
      (∃ e, err = GoError.wrap "failed to create link" e)) := by
    have hfilter := retryLoop_filter_not_insert repo rd maxRetries w
    have hnoins : ∀ link err,
        Event.insert link err ∉ (retryLoop repo rd maxRetries w).events := by
      intro link err hmem
      have h0 := retryLoop_no_insert repo rd maxRetries w
      rw [List.countP_eq_zero] at h0
      simpa [Event.isInsert] using h0 _ hmem
    have hloop := retryLoop_returned repo rd maxRetries w
    rcases CreateLink_cases repo rd now longURL w with
      ⟨e, hr, h⟩ | ⟨_, h⟩ | ⟨code, e, _, _, _, h⟩ | ⟨code, id, _, _, _, h⟩
    · rw [h]
      refine ⟨hfilter, fun link err hm => absurd hm (hnoins link err), by simp, ?_⟩
      intro err herr
      simp only [Option.some.injEq] at herr
      subst herr
      rcases hloop e hr with h1 | h1
      · exact Or.inl h1
      · exact Or.inr (Or.inl h1)
    · rw [h]
      refine ⟨hfilter, fun link err hm => absurd hm (hnoins link err), by simp, ?_⟩
      intro err herr
      simp only [Option.some.injEq] at herr
      exact Or.inr (Or.inr (Or.inl herr.symm))
    · rw [h]
      refine ⟨?_, ?_, by simp, ?_⟩
      · rw [List.filter_append, hfilter]; simp [Event.isInsert]
      · intro link err hm
        simp only [List.mem_append, List.mem_singleton] at hm
        rcases hm with hm | hm
        · exact absurd hm (hnoins link err)
        · simp only [Event.insert.injEq] at hm
          rw [hm.1]
      · intro err herr
        simp only [Option.some.injEq] at herr
        exact Or.inr (Or.inr (Or.inr ⟨e, herr.symm⟩))
    · rw [h]
      refine ⟨?_, ?_, by simp, by simp⟩
      · rw [List.filter_append, hfilter]; simp [Event.isInsert]
      · intro link err hm
        simp only [List.mem_append, List.mem_singleton] at hm
        rcases hm with hm | hm
        · exact absurd hm (hnoins link err)
        · simp only [Event.insert.injEq] at hm
          rw [hm.1]
  refine ⟨hfour.1, hfour.2.1, hfour.2.2.1, hfour.2.2.2, ?_⟩
  intro code e id hgen hnot hIs hins
  have hloop := retryLoop_accepts repo rd [] maxRetries w code e (by decide)
    (fun i c hi => by
      cases i with
      | zero =>
        simp only [List.nil_append, List.getElem?_cons_zero, Option.some.injEq] at hi
        subst hi
        simpa using hgen
      | succ i => simp at hi)
    (fun i c hi => by simp at hi)
    (by simpa [afterLookups] using hnot) hIs
  have hne : code ≠ "" := by
    have h0 := hgen
    rw [GenerateShortCode_six] at h0
    simp only [Option.some.injEq] at h0
    have hinv := (fillAndReturn_inv rd 6 w.rng).1 (by rw [h0])
    rw [h0] at hinv
    intro hempty
    have hlen := hinv.1
    simp only [hempty] at hlen
    simp at hlen
  simp only [List.nil_append, afterLookups, attemptEvents, List.length_nil] at hloop
  simp only [CreateLink, hloop, hne, if_false, hins, errOf, hnot, lookupLink]
  rfl

theorem CreateLink_does_not_validate_witness :
    (CreateLink memLinkRepository cyclicReader 0 "not-a-valid-url" ⟨⟨[], []⟩, 0⟩).ret.1 =
      some ⟨1, "abcdef", "not-a-valid-url", 0, []⟩ ∧
    (⟨1, "abcdef", "not-a-valid-url", 0, []⟩ : Link).LongURL = "not-a-valid-url" ∧
    GenerateShortCode cyclicReader 6 0 = some (("abcdef", none), 0 + 6) ∧
    errorsIs GoError.ErrRecordNotFound GoError.ErrRecordNotFound = true ∧
    CreateLink memLinkRepository cyclicReader 0 "" ⟨⟨[], []⟩, 0⟩ =
      ⟨(some ⟨1, "abcdef", "", 0, []⟩, none),
        ⟨(memLinkRepository.CreateLink
            (memLinkRepository.GetLinkByShortCode ⟨[], []⟩ "abcdef").2
            ⟨0, "abcdef", "", 0, []⟩).2, 0 + 6⟩,
        [Event.generate 6 "abcdef" none,
          Event.lookup "abcdef" none (some GoError.ErrRecordNotFound),
          Event.insert ⟨0, "abcdef", "", 0, []⟩ none]⟩ ∧
    (CreateLink memLinkRepository cyclicReader 0 "" ⟨⟨[], []⟩, 0⟩).world.db =
      ⟨[⟨1, "abcdef", "", 0, []⟩], []⟩ :=
  ⟨by decide,
    (CreateLink_does_not_validate memLinkRepository cyclicReader 0 "not-a-valid-url"
      ⟨⟨[], []⟩, 0⟩).2.2.1 ⟨1, "abcdef", "not-a-valid-url", 0, []⟩ (by decide),
    by decide, by decide,
    (CreateLink_does_not_validate memLinkRepository cyclicReader 0 ""
      ⟨⟨[], []⟩, 0⟩).2.2.2.2 "abcdef" GoError.ErrRecordNotFound 1 (by decide) rfl
      (by decide) rfl,
    by decide⟩

end UrlShortener
